import Mathlib

/-!
Verification of the RCS-APP webhook receiver (src/app.py, with
src/server_flask.py as a variant) against its natural-language
specification.

The development shallowly embeds the Python code:

* JSON values are the inductive type `Json` (Python's `None`, `bool`,
  `int`, `str`, `list`, `dict`).  JSON floats are outside the model; no
  claim mentions them.
* Python dict/iteration semantics that the code relies on are embedded
  faithfully: `x.get` is only available on dicts (otherwise
  `AttributeError`), `'k' in x` works on dicts, lists and strings and
  raises `TypeError` otherwise, and truthiness follows Python.
* Exceptions are modelled with `Except`: `PyErr.jsonDecode` stands for
  `json.JSONDecodeError` (caught by the webhook and turned into the
  400 "Invalid JSON" response) and `PyErr.other` for every other
  exception (caught by the webhook's blanket handler, 500).
* `hashlib.sha512`, `hmac`, `base64` and `json` are Python standard
  library collaborators; they are embedded from their documented
  behaviour (FIPS 180-4 SHA-512, RFC 2104 HMAC, RFC 4648 base64 with
  MIME line breaks for `base64.encodebytes`, and `json.dumps` /
  `json.loads` with their default options restricted to integer
  numerals).
-/

namespace RcsApp

/-! ## JSON values (Python objects as decoded from JSON) -/

/-- A JSON value, which is also the model of the Python objects produced
by `json.loads` / `request.get_json`: `null` is Python `None`, `obj` is a
Python dict (entries in insertion order), `arr` a list, `num` an int. -/
inductive Json where
  | null
  | bool (b : Bool)
  | num (n : Int)
  | str (s : String)
  | arr (xs : List Json)
  | obj (kvs : List (String × Json))

mutual

def beqVal : Json → Json → Bool
  | Json.null, Json.null => true
  | Json.bool a, Json.bool b => a == b
  | Json.num a, Json.num b => a == b
  | Json.str a, Json.str b => a == b
  | Json.arr a, Json.arr b => beqElems a b
  | Json.obj a, Json.obj b => beqKVs a b
  | _, _ => false

def beqElems : List Json → List Json → Bool
  | [], [] => true
  | x :: xs, y :: ys => beqVal x y && beqElems xs ys
  | _, _ => false

def beqKVs : List (String × Json) → List (String × Json) → Bool
  | [], [] => true
  | (k, v) :: xs, (l, w) :: ys => k == l && beqVal v w && beqKVs xs ys
  | _, _ => false

end

mutual

/-- Soundness and completeness of `beqVal`, packaged as a definition so
that the decidable-equality instance below can be built from it. -/
def beqValIff : ∀ a b : Json, beqVal a b = true ↔ a = b
  | Json.null, b => by cases b <;> simp [beqVal]
  | Json.bool a, b => by cases b <;> simp [beqVal]
  | Json.num a, b => by cases b <;> simp [beqVal]
  | Json.str a, b => by cases b <;> simp [beqVal]
  | Json.arr xs, b => by
      cases b <;> simp [beqVal]
      exact beqElemsIff xs _
  | Json.obj kvs, b => by
      cases b <;> simp [beqVal]
      exact beqKVsIff kvs _

def beqElemsIff : ∀ xs ys : List Json, beqElems xs ys = true ↔ xs = ys
  | [], ys => by cases ys <;> simp [beqElems]
  | x :: xs, ys => by
      cases ys <;> simp [beqElems, beqValIff x, beqElemsIff xs]

def beqKVsIff : ∀ xs ys : List (String × Json), beqKVs xs ys = true ↔ xs = ys
  | [], ys => by cases ys <;> simp [beqKVs]
  | (k, v) :: xs, ys => by
      rcases ys with _ | ⟨⟨l, w⟩, ys⟩ <;> simp [beqKVs, beqValIff v, beqKVsIff xs]

end

instance : DecidableEq Json := fun a b => decidable_of_iff _ (beqValIff a b)

instance {ε α : Type} [DecidableEq ε] [DecidableEq α] : DecidableEq (Except ε α) :=
  fun a b =>
    match a, b with
    | Except.ok x, Except.ok y =>
      if h : x = y then Decidable.isTrue (by rw [h]) else Decidable.isFalse (by simpa using h)
    | Except.error x, Except.error y =>
      if h : x = y then Decidable.isTrue (by rw [h]) else Decidable.isFalse (by simpa using h)
    | Except.ok _, Except.error _ => Decidable.isFalse (by simp)
    | Except.error _, Except.ok _ => Decidable.isFalse (by simp)

/-- Python truthiness of a decoded-JSON value: `None`, `False`, `0`, `""`,
`[]` and `{}` are falsy, everything else truthy. -/
def pyTruthy : Json → Bool
  | Json.null => false
  | Json.bool b => b
  | Json.num n => n != 0
  | Json.str s => s != ""
  | Json.arr xs => !xs.isEmpty
  | Json.obj kvs => !kvs.isEmpty

/-- First binding of key `k` in an association list.  Payloads produced by
`json.loads` model Python dicts and never carry a duplicate key, so first
match agrees with dict lookup there. -/
def lookupKV (kvs : List (String × Json)) (k : String) : Option Json :=
  match kvs with
  | [] => none
  | (l, v) :: rest => if l = k then some v else lookupKV rest k

/-- Exceptions distinguished by the webhook's `try`/`except` blocks. -/
inductive PyErr where
  | jsonDecode
  | other
  deriving DecidableEq

/-- Python `x.get(k, dflt)`: defined on dicts only; any other receiver
raises `AttributeError` (modelled as `PyErr.other`). -/
def dictGet (j : Json) (k : String) (dflt : Json) : Except PyErr Json :=
  match j with
  | Json.obj kvs => Except.ok ((lookupKV kvs k).getD dflt)
  | _ => Except.error PyErr.other

/-- Containment of one character list in another, used for Python's
substring test `needle in hay` on strings. -/
def charsContain (hay needle : List Char) : Bool :=
  match hay with
  | [] => needle.isEmpty
  | _ :: rest =>
    (decide (needle = List.take needle.length hay)) || charsContain rest needle

/-- Python `k in x` for a string key `k`: key test on dicts, membership on
lists, substring test on strings; `TypeError` on any other receiver. -/
def pyIn (k : String) (j : Json) : Except PyErr Bool :=
  match j with
  | Json.obj kvs => Except.ok ((lookupKV kvs k).isSome)
  | Json.arr xs => Except.ok (xs.contains (Json.str k))
  | Json.str s => Except.ok (charsContain s.data k.data)
  | _ => Except.error PyErr.other

/-- Python `x.lower()` on a decoded-JSON value: ASCII lowercasing for
strings (the code only feeds it `"hola"`-style comparisons), and an
`AttributeError` on any non-string receiver. -/
def pyLower (j : Json) : Except PyErr String :=
  match j with
  | Json.str s => Except.ok (String.mk (s.data.map Char.toLower))
  | _ => Except.error PyErr.other

/-! ## UTF-8 (`str.encode('utf-8')` / `bytes.decode('utf-8')`)

Bytes are natural numbers below 256. -/

/-- UTF-8 encoding of one Unicode scalar value. -/
def utf8EncodeChar (c : Char) : List Nat :=
  let n := c.toNat
  if n < 128 then [n]
  else if n < 2048 then [192 + n / 64, 128 + n % 64]
  else if n < 65536 then [224 + n / 4096, 128 + n / 64 % 64, 128 + n % 64]
  else [240 + n / 262144, 128 + n / 4096 % 64, 128 + n / 64 % 64, 128 + n % 64]

/-- UTF-8 encoding of a character sequence (`str.encode('utf-8')`). -/
def utf8Encode : List Char → List Nat
  | [] => []
  | c :: rest => utf8EncodeChar c ++ utf8Encode rest

/-- Whether `b` is a UTF-8 continuation byte. -/
def isCont (b : Nat) : Bool := 128 ≤ b && b < 192

mutual

/-- UTF-8 decoding (`bytes.decode('utf-8')`); `none` models
`UnicodeDecodeError`.  Lead/continuation ranges follow RFC 3629, so
overlong forms and surrogates are rejected as CPython does.  The
two-, three- and four-byte sequences continue in the helpers below. -/
def utf8Decode : List Nat → Option (List Char)
  | [] => some []
  | b1 :: rest =>
    if b1 < 128 then (utf8Decode rest).map (fun cs => Char.ofNat b1 :: cs)
    else if b1 < 194 then none
    else if b1 < 224 then utf8Tail1 b1 rest
    else if b1 < 240 then utf8Tail2 b1 rest
    else if b1 < 245 then utf8Tail3 b1 rest
    else none

/-- Continuation byte of a two-byte UTF-8 sequence. -/
def utf8Tail1 (b1 : Nat) : List Nat → Option (List Char)
  | b2 :: rest2 =>
    if isCont b2 then
      (utf8Decode rest2).map (fun cs => Char.ofNat ((b1 - 192) * 64 + (b2 - 128)) :: cs)
    else none
  | _ => none

/-- Continuation bytes of a three-byte UTF-8 sequence. -/
def utf8Tail2 (b1 : Nat) : List Nat → Option (List Char)
  | b2 :: b3 :: rest3 =>
    if (if b1 = 224 then 160 ≤ b2 && b2 < 192
        else if b1 = 237 then 128 ≤ b2 && b2 < 160
        else isCont b2) && isCont b3 then
      (utf8Decode rest3).map
        (fun cs => Char.ofNat ((b1 - 224) * 4096 + (b2 - 128) * 64 + (b3 - 128)) :: cs)
    else none
  | _ => none

/-- Continuation bytes of a four-byte UTF-8 sequence. -/
def utf8Tail3 (b1 : Nat) : List Nat → Option (List Char)
  | b2 :: b3 :: b4 :: rest4 =>
    if (if b1 = 240 then 144 ≤ b2 && b2 < 192
        else if b1 = 244 then 128 ≤ b2 && b2 < 144
        else isCont b2) && isCont b3 && isCont b4 then
      (utf8Decode rest4).map
        (fun cs =>
          Char.ofNat ((b1 - 240) * 262144 + (b2 - 128) * 4096 + (b3 - 128) * 64 + (b4 - 128)) :: cs)
    else none
  | _ => none

end

/-! ## SHA-512 (`hashlib.sha512`, FIPS 180-4) and HMAC (`hmac.new`)

Words are naturals reduced modulo `2 ^ 64`.  The round and initial
constants are computed as FIPS 180-4 defines them: the first 64 bits of
the fractional parts of the cube roots (respectively square roots) of
the first 80 (respectively 8) primes. -/

/-- Reduction modulo `2 ^ 64`. -/
def w64 (x : Nat) : Nat := x % 18446744073709551616

/-- Right rotation of a 64-bit word. -/
def rotr (x n : Nat) : Nat := w64 (x / 2 ^ n + x % 2 ^ n * 2 ^ (64 - n))

/-- Logical right shift. -/
def shr (x n : Nat) : Nat := x / 2 ^ n

/-- SHA-512 `Ch` function. -/
def ch (e f g : Nat) : Nat := (e &&& f) ^^^ ((e ^^^ 18446744073709551615) &&& g)

/-- SHA-512 `Maj` function. -/
def maj (a b c : Nat) : Nat := (a &&& b) ^^^ (a &&& c) ^^^ (b &&& c)

/-- SHA-512 `Σ0`. -/
def bigSigma0 (a : Nat) : Nat := rotr a 28 ^^^ rotr a 34 ^^^ rotr a 39

/-- SHA-512 `Σ1`. -/
def bigSigma1 (e : Nat) : Nat := rotr e 14 ^^^ rotr e 18 ^^^ rotr e 41

/-- SHA-512 `σ0`. -/
def smallSigma0 (x : Nat) : Nat := rotr x 1 ^^^ rotr x 8 ^^^ shr x 7

/-- SHA-512 `σ1`. -/
def smallSigma1 (x : Nat) : Nat := rotr x 19 ^^^ rotr x 61 ^^^ shr x 6

/-- Bisection step for the integer cube root. -/
def cbrtSearch (n : Nat) : Nat → Nat → Nat → Nat
  | 0, lo, _ => lo
  | fuel + 1, lo, hi =>
    if hi ≤ lo + 1 then lo
    else
      let mid := (lo + hi) / 2
      if mid ^ 3 ≤ n then cbrtSearch n fuel mid hi else cbrtSearch n fuel lo mid

/-- Integer cube root (largest `r` with `r ^ 3 ≤ n`). -/
def intCbrt (n : Nat) : Nat := cbrtSearch n 400 0 (n + 1)

/-- The first 80 primes, whose roots seed the SHA-512 constants. -/
def primes80 : List Nat :=
  [2, 3, 5, 7, 11, 13, 17, 19, 23, 29, 31, 37, 41, 43, 47, 53, 59, 61, 67, 71,
   73, 79, 83, 89, 97, 101, 103, 107, 109, 113, 127, 131, 137, 139, 149, 151,
   157, 163, 167, 173, 179, 181, 191, 193, 197, 199, 211, 223, 227, 229, 233,
   239, 241, 251, 257, 263, 269, 271, 277, 281, 283, 293, 307, 311, 313, 317,
   331, 337, 347, 349, 353, 359, 367, 373, 379, 383, 389, 397, 401, 409]

/-- The 80 SHA-512 round constants `K`. -/
def sha512K : List Nat := primes80.map (fun p => w64 (intCbrt (p * 2 ^ 192)))

/-- Working state: eight 64-bit words. -/
structure H8 where
  a : Nat
  b : Nat
  c : Nat
  d : Nat
  e : Nat
  f : Nat
  g : Nat
  h : Nat

/-- Initial SHA-512 hash value `H(0)`. -/
def sha512Init : H8 :=
  match primes80.map (fun p => w64 (Nat.sqrt (p * 2 ^ 128))) with
  | h0 :: h1 :: h2 :: h3 :: h4 :: h5 :: h6 :: h7 :: _ => ⟨h0, h1, h2, h3, h4, h5, h6, h7⟩
  | _ => ⟨0, 0, 0, 0, 0, 0, 0, 0⟩

/-- Big-endian byte string of fixed width `k`. -/
def beBytes : Nat → Nat → List Nat
  | 0, _ => []
  | k + 1, v => beBytes k (v / 256) ++ [v % 256]

/-- FIPS 180-4 message padding for SHA-512: a `0x80` byte, zeros to 112
modulo 128, then the message bit length on 16 big-endian bytes. -/
def padMessage (msg : List Nat) : List Nat :=
  msg ++ 128 :: List.replicate ((240 - (msg.length + 1) % 128) % 128) 0 ++
    beBytes 16 (8 * msg.length)

/-- Big-endian 64-bit words of a byte string (length a multiple of 8). -/
def toWords : List Nat → List Nat
  | b1 :: b2 :: b3 :: b4 :: b5 :: b6 :: b7 :: b8 :: rest =>
    (((((((b1 * 256 + b2) * 256 + b3) * 256 + b4) * 256 + b5) * 256 + b6) * 256 + b7) * 256 + b8)
      :: toWords rest
  | _ => []

/-- Message-schedule extension: prepend `count` further words to the
reversed schedule `acc`. -/
def extendW : Nat → List Nat → List Nat
  | 0, acc => acc.reverse
  | count + 1, acc =>
    let next :=
      w64 (smallSigma1 (acc.getD 1 0) + acc.getD 6 0 + smallSigma0 (acc.getD 14 0) + acc.getD 15 0)
    extendW count (next :: acc)

/-- The 80-entry message schedule of one block. -/
def schedule (ws : List Nat) : List Nat := extendW 64 ws.reverse

/-- One SHA-512 round, consuming a pair of a round constant and a
schedule word. -/
def roundFn (st : H8) (kw : Nat × Nat) : H8 :=
  let t1 := w64 (st.h + bigSigma1 st.e + ch st.e st.f st.g + kw.1 + kw.2)
  let t2 := w64 (bigSigma0 st.a + maj st.a st.b st.c)
  ⟨w64 (t1 + t2), st.a, st.b, st.c, w64 (st.d + t1), st.e, st.f, st.g⟩

/-- Compression of one 16-word block into the running hash value. -/
def compressBlock (st : H8) (ws : List Nat) : H8 :=
  let fin := (sha512K.zip (schedule ws)).foldl roundFn st
  ⟨w64 (st.a + fin.a), w64 (st.b + fin.b), w64 (st.c + fin.c), w64 (st.d + fin.d),
   w64 (st.e + fin.e), w64 (st.f + fin.f), w64 (st.g + fin.g), w64 (st.h + fin.h)⟩

/-- Iterated compression over the 16-word blocks of a padded message. -/
def processBlocks (st : H8) : List Nat → H8
  | w0 :: w1 :: w2 :: w3 :: w4 :: w5 :: w6 :: w7 :: w8 :: w9 :: w10 :: w11 :: w12 :: w13
      :: w14 :: w15 :: rest =>
    processBlocks
      (compressBlock st [w0, w1, w2, w3, w4, w5, w6, w7, w8, w9, w10, w11, w12, w13, w14, w15])
      rest
  | _ => st

/-- SHA-512 digest (64 bytes) of a byte string (`hashlib.sha512(...).digest()`). -/
def sha512 (msg : List Nat) : List Nat :=
  let fin := processBlocks sha512Init (toWords (padMessage msg))
  beBytes 8 fin.a ++ beBytes 8 fin.b ++ beBytes 8 fin.c ++ beBytes 8 fin.d ++
    beBytes 8 fin.e ++ beBytes 8 fin.f ++ beBytes 8 fin.g ++ beBytes 8 fin.h

/-- HMAC-SHA-512 digest (RFC 2104, block size 128) of `msg` under `key`:
`hmac.new(key, msg, hashlib.sha512).digest()`. -/
def hmacSha512 (key msg : List Nat) : List Nat :=
  let k1 := if 128 < key.length then sha512 key else key
  let k2 := k1 ++ List.replicate (128 - k1.length) 0
  sha512 ((k2.map (fun b => b ^^^ 92)) ++ sha512 ((k2.map (fun b => b ^^^ 54)) ++ msg))

/-! ## Base64 (`base64.b64encode` / `base64.encodebytes` / `base64.b64decode`) -/

/-- The base64 alphabet. -/
def b64Alphabet : List Char :=
  "ABCDEFGHIJKLMNOPQRSTUVWXYZabcdefghijklmnopqrstuvwxyz0123456789+/".data

/-- Character for a 6-bit group. -/
def b64Char (n : Nat) : Char := b64Alphabet.getD n 'A'

/-- Single-line padded base64 encoding of a byte string
(`base64.b64encode`). -/
def b64encode : List Nat → List Char
  | [] => []
  | [a] => [b64Char (a / 4), b64Char (a % 4 * 16), '=', '=']
  | [a, b] => [b64Char (a / 4), b64Char (a % 4 * 16 + b / 16), b64Char (b % 16 * 4), '=']
  | a :: b :: c :: rest =>
    b64Char (a / 4) :: b64Char (a % 4 * 16 + b / 16) :: b64Char (b % 16 * 4 + c / 64)
      :: b64Char (c % 64) :: b64encode rest

/-- Helper for `encodebytes`: encode 57-byte chunks, each followed by a
newline.  The fuel is an upper bound on the number of chunks; callers
pass the input length. -/
def encodeChunks : Nat → List Nat → List Char
  | _, [] => []
  | 0, l => b64encode l ++ [ '\n' ]
  | fuel + 1, l => b64encode (l.take 57) ++ '\n' :: encodeChunks fuel (l.drop 57)

/-- MIME base64 encoding (`base64.encodebytes`): 76 output characters —
57 input bytes — per line, every line newline-terminated. -/
def encodebytes (l : List Nat) : List Char := encodeChunks l.length l

/-- Python whitespace, as stripped by `str.strip()`. -/
def isPyWs (c : Char) : Bool :=
  c = ' ' || c = '\t' || c = '\n' || c = '\r' || c = Char.ofNat 11 || c = Char.ofNat 12

/-- Python `str.strip()`: drop leading and trailing whitespace. -/
def stripChars (l : List Char) : List Char :=
  ((l.dropWhile isPyWs).reverse.dropWhile isPyWs).reverse

/-! ## The signature verifier (`verify_signature`, src/app.py lines 23-60) -/

/-- Model of `hmac.compare_digest` on strings: equality.  Its
constant-time evaluation strategy has no observable counterpart in a
functional embedding. -/
def compareDigest (a b : String) : Bool := a == b

/-- The base64-encoded MAC that `verify_signature` computes for a body
under a configured secret:
`base64.encodebytes(hmac.new(secret.encode('utf-8'), body, sha512).digest()).decode('utf-8').strip()`. -/
def expectedSignature (secretKey : String) (requestData : List Nat) : String :=
  String.mk (stripChars (encodebytes (hmacSha512 (utf8Encode secretKey.data) requestData)))

/-- Model of `verify_signature(request_data, signature_header)` with the
module-global `SECRET_KEY` made explicit.  `none` is an absent
`X-Goog-Signature` header; Python's `if not signature_header` also
treats an empty header as absent.  The `try`/`except` around the MAC
computation is not represented because no step of the embedded
computation raises. -/
def verifySignature (secretKey : String) (requestData : List Nat)
    (signatureHeader : Option String) : Bool :=
  if secretKey = "" then true
  else
    match signatureHeader with
    | none => false
    | some sig =>
      if sig = "" then false
      else compareDigest (expectedSignature secretKey requestData) sig

/-! ## `json.dumps` (default options: `ensure_ascii=True`, separators
`", "` and `": "`), restricted to integer numerals -/

/-- Lowercase hexadecimal digit. -/
def hexDig (n : Nat) : Char := if n < 10 then Char.ofNat (48 + n) else Char.ofNat (87 + n)

/-- Four-digit lowercase hexadecimal form used by `\uXXXX` escapes. -/
def toHex4 (n : Nat) : List Char :=
  [hexDig (n / 4096 % 16), hexDig (n / 256 % 16), hexDig (n / 16 % 16), hexDig (n % 16)]

/-- Escape of one character inside a JSON string literal, as
`json.dumps` emits it: the two-character escapes of the C0 controls it
abbreviates, `\uXXXX` (with a surrogate pair beyond the BMP) for other
controls and for every non-ASCII character, and the character itself
otherwise. -/
def escapeChar (c : Char) : List Char :=
  if c = '"' then ['\\', '"']
  else if c = '\\' then ['\\', '\\']
  else if c = Char.ofNat 8 then ['\\', 'b']
  else if c = Char.ofNat 9 then ['\\', 't']
  else if c = '\n' then ['\\', 'n']
  else if c = Char.ofNat 12 then ['\\', 'f']
  else if c = '\r' then ['\\', 'r']
  else if c.toNat < 32 || 126 < c.toNat then
    if c.toNat < 65536 then '\\' :: 'u' :: toHex4 c.toNat
    else
      '\\' :: 'u' :: toHex4 (55296 + (c.toNat - 65536) / 1024) ++
        '\\' :: 'u' :: toHex4 (56320 + (c.toNat - 65536) % 1024)
  else [c]

/-- Escape of a whole string body. -/
def escapeStr : List Char → List Char
  | [] => []
  | c :: rest => escapeChar c ++ escapeStr rest

/-- Decimal digit character. -/
def digitChar (n : Nat) : Char := Char.ofNat (48 + n)

/-- Decimal numeral of `n`, most significant digit first; the fuel bounds
the recursion and any fuel above `n` is enough. -/
def natChars : Nat → Nat → List Char
  | 0, _ => []
  | fuel + 1, n => if n < 10 then [digitChar n] else natChars fuel (n / 10) ++ [digitChar (n % 10)]

/-- Python `str(i)` for an int. -/
def intChars (i : Int) : List Char :=
  if i < 0 then '-' :: natChars (i.natAbs + 1) i.natAbs else natChars (i.natAbs + 1) i.natAbs

mutual

/-- Characters of `json.dumps` of a value. -/
def dumpsVal : Json → List Char
  | Json.null => [ 'n', 'u', 'l', 'l' ]
  | Json.bool true => [ 't', 'r', 'u', 'e' ]
  | Json.bool false => [ 'f', 'a', 'l', 's', 'e' ]
  | Json.num n => intChars n
  | Json.str s => '"' :: escapeStr s.data ++ [ '"' ]
  | Json.arr xs => '[' :: dumpsElems xs ++ [ ']' ]
  | Json.obj kvs => '{' :: dumpsMembers kvs ++ [ '}' ]

/-- Comma-space separated array elements. -/
def dumpsElems : List Json → List Char
  | [] => []
  | [x] => dumpsVal x
  | x :: y :: rest => dumpsVal x ++ ',' :: ' ' :: dumpsElems (y :: rest)

/-- Comma-space separated `"key": value` members. -/
def dumpsMembers : List (String × Json) → List Char
  | [] => []
  | [(k, v)] => '"' :: escapeStr k.data ++ '"' :: ':' :: ' ' :: dumpsVal v
  | (k, v) :: m :: rest =>
    '"' :: escapeStr k.data ++ '"' :: ':' :: ' ' :: dumpsVal v ++
      ',' :: ' ' :: dumpsMembers (m :: rest)

end

/-! ## `json.loads`, restricted to integer numerals

The parser is a recursive-descent reading of CPython's `json.scanner`:
strict strings (raw control characters rejected, `\uXXXX` escapes with
surrogate-pair recombination), exact `null`/`true`/`false` keywords,
whitespace limited to space, tab, newline and carriage return, and the
whole input consumed.  Divergences from CPython, none of which any claim
touches: numerals with a fraction or exponent and strings containing a
lone surrogate escape are rejected rather than producing a float or a
surrogate, and a duplicate object key keeps both entries rather than the
last.  The value-level recursion is bounded by a fuel parameter; fuel
exceeding the input length never runs out. -/

/-- JSON whitespace skipping. -/
def skipWs (l : List Char) : List Char :=
  l.dropWhile (fun c => c = ' ' || c = '\t' || c = '\n' || c = '\r')

/-- Decimal digit test. -/
def isDigitCh (c : Char) : Bool := 48 ≤ c.toNat && c.toNat ≤ 57

/-- Value of a decimal digit character. -/
def digitVal (c : Char) : Nat := c.toNat - 48

/-- Value of a hexadecimal digit character (either case). -/
def hexVal (c : Char) : Option Nat :=
  if isDigitCh c then some (digitVal c)
  else if 97 ≤ c.toNat && c.toNat ≤ 102 then some (c.toNat - 87)
  else if 65 ≤ c.toNat && c.toNat ≤ 70 then some (c.toNat - 55)
  else none

/-- Two-character string escapes recognised after a backslash. -/
def escCode (c : Char) : Option Char :=
  if c = '"' then some '"'
  else if c = '\\' then some '\\'
  else if c = '/' then some '/'
  else if c = 'b' then some (Char.ofNat 8)
  else if c = 'f' then some (Char.ofNat 12)
  else if c = 'n' then some '\n'
  else if c = 'r' then some '\r'
  else if c = 't' then some (Char.ofNat 9)
  else none

/-- Combined value of four hexadecimal digit characters. -/
def hex4Val (h1 h2 h3 h4 : Char) : Option Nat := do
  let v1 ← hexVal h1
  let v2 ← hexVal h2
  let v3 ← hexVal h3
  let v4 ← hexVal h4
  some (((v1 * 16 + v2) * 16 + v3) * 16 + v4)

mutual

/-- Body of a JSON string literal after the opening quote; returns the
decoded characters and the input after the closing quote.  The decoding
rules are CPython's strict `json` scanner ones: two-character escapes,
`\uXXXX` escapes with surrogate-pair recombination, raw control
characters rejected.  The grammar is split into one function per
construct so that each equation mirrors one scanner step. -/
def parseStringBody : List Char → Option (List Char × List Char)
  | [] => none
  | c :: rest =>
    if c = '"' then some ([], rest)
    else if c = '\\' then parseEscape rest
    else if c.toNat < 32 then none
    else (parseStringBody rest).map (fun p => (c :: p.1, p.2))

/-- One escape sequence, entered after the backslash. -/
def parseEscape : List Char → Option (List Char × List Char)
  | [] => none
  | e :: rest2 =>
    if e = 'u' then parseUnicodeEsc rest2
    else
      match escCode e with
      | some d => (parseStringBody rest2).map (fun p => (d :: p.1, p.2))
      | none => none

/-- A `\uXXXX` escape, entered after the `u`. -/
def parseUnicodeEsc : List Char → Option (List Char × List Char)
  | h1 :: h2 :: h3 :: h4 :: rest3 =>
    match hex4Val h1 h2 h3 h4 with
    | none => none
    | some v =>
      if 55296 ≤ v && v < 56320 then parseLowSurrogate v rest3
      else if 56320 ≤ v && v < 57344 then none
      else (parseStringBody rest3).map (fun p => (Char.ofNat v :: p.1, p.2))
  | _ => none

/-- The low half of a surrogate pair, with `v` the high half's value. -/
def parseLowSurrogate (v : Nat) : List Char → Option (List Char × List Char)
  | b1 :: u1 :: h5 :: h6 :: h7 :: h8 :: rest5 =>
    if b1 = '\\' && u1 = 'u' then
      match hex4Val h5 h6 h7 h8 with
      | some w =>
        if 56320 ≤ w && w < 57344 then
          (parseStringBody rest5).map
            (fun p => (Char.ofNat (65536 + (v - 55296) * 1024 + (w - 56320)) :: p.1, p.2))
        else none
      | none => none
    else none
  | _ => none

end

/-- Greedy run of decimal digits folded onto an accumulator. -/
def parseDigitsAcc (acc : Nat) : List Char → Nat × List Char
  | [] => (acc, [])
  | c :: rest =>
    if isDigitCh c then parseDigitsAcc (acc * 10 + digitVal c) rest else (acc, c :: rest)

/-- Whether the input continues with a decimal digit. -/
def headIsDigit : List Char → Bool
  | [] => false
  | d :: _ => isDigitCh d

/-- Whether the input continues with a fraction or exponent marker. -/
def headIsFloatStart : List Char → Bool
  | [] => false
  | d :: _ => d = '.' || d = 'e' || d = 'E'

/-- Unsigned integer numeral: at least one digit, no redundant leading
zero, and no fraction or exponent following. -/
def parseUNum : List Char → Option (Nat × List Char)
  | [] => none
  | c :: rest =>
    if isDigitCh c then
      if c = '0' && headIsDigit rest then none
      else
        match parseDigitsAcc (digitVal c) rest with
        | (n, r) => if headIsFloatStart r then none else some (n, r)
    else none

/-- Signed integer numeral. -/
def parseNumber (l : List Char) : Option (Json × List Char) :=
  match l with
  | [] => none
  | c :: rest =>
    if c = '-' then (parseUNum rest).map (fun p => (Json.num ((p.1 : Int) * (-1)), p.2))
    else (parseUNum (c :: rest)).map (fun p => (Json.num (p.1 : Int), p.2))

mutual

/-- JSON value parser (fuel-bounded). -/
def parseValueF : Nat → List Char → Option (Json × List Char)
  | 0, _ => none
  | fuel + 1, l =>
    match skipWs l with
    | [] => none
    | c :: rest =>
      if c = 'n' then
        match rest with
        | 'u' :: 'l' :: 'l' :: r => some (Json.null, r)
        | _ => none
      else if c = 't' then
        match rest with
        | 'r' :: 'u' :: 'e' :: r => some (Json.bool true, r)
        | _ => none
      else if c = 'f' then
        match rest with
        | 'a' :: 'l' :: 's' :: 'e' :: r => some (Json.bool false, r)
        | _ => none
      else if c = '"' then
        (parseStringBody rest).map (fun p => (Json.str (String.mk p.1), p.2))
      else if c = '[' then
        match skipWs rest with
        | [] => none
        | d :: l2 =>
          if d = ']' then some (Json.arr [], l2)
          else (parseElemsF fuel (d :: l2)).map (fun p => (Json.arr p.1, p.2))
      else if c = '{' then
        match skipWs rest with
        | [] => none
        | d :: l2 =>
          if d = '}' then some (Json.obj [], l2)
          else (parseMembersF fuel (d :: l2)).map (fun p => (Json.obj p.1, p.2))
      else parseNumber (c :: rest)

/-- One or more comma-separated array elements followed by `]`. -/
def parseElemsF : Nat → List Char → Option (List Json × List Char)
  | 0, _ => none
  | fuel + 1, l =>
    match parseValueF fuel l with
    | none => none
    | some (v, r) =>
      match skipWs r with
      | [] => none
      | d :: r2 =>
        if d = ',' then (parseElemsF fuel r2).map (fun p => (v :: p.1, p.2))
        else if d = ']' then some ([v], r2)
        else none

/-- One or more comma-separated `"key": value` members followed by `}`;
the input must already start at the opening quote of a key. -/
def parseMembersF : Nat → List Char → Option (List (String × Json) × List Char)
  | 0, _ => none
  | fuel + 1, l =>
    match l with
    | [] => none
    | d :: r =>
      if d = '"' then
        match parseStringBody r with
        | none => none
        | some (k, r2) =>
          match skipWs r2 with
          | [] => none
          | e :: r3 =>
            if e = ':' then
              match parseValueF fuel r3 with
              | none => none
              | some (v, r4) =>
                match skipWs r4 with
                | [] => none
                | g :: r5 =>
                  if g = ',' then
                    (parseMembersF fuel (skipWs r5)).map
                      (fun p => ((String.mk k, v) :: p.1, p.2))
                  else if g = '}' then some ([(String.mk k, v)], r5)
                  else none
            else none
      else none

end

/-- Model of `json.loads` on a character sequence: parse one value and
require only whitespace after it; `none` is a `json.JSONDecodeError`. -/
def parseJson (l : List Char) : Option Json :=
  match parseValueF (l.length + 1) l with
  | some (v, rest) => if skipWs rest = [] then some v else none
  | none => none

/-- Characters that may legally follow a serialised value inside a
larger `json.dumps` output: the input is exhausted or continues with a
separator or a closing bracket.  Such a continuation never extends a
numeral and never begins with whitespace. -/
def restDelim (rest : List Char) : Bool :=
  match rest with
  | [] => true
  | c :: _ => c = ',' || c = ']' || c = '}'

/-! ## Base64 decoding (`base64.b64decode`, as used on the relay envelope) -/

/-- Value of a base64 alphabet character. -/
def b64Val (c : Char) : Option Nat :=
  let i := b64Alphabet.indexOf c
  if i < 64 then some i else none

/-- Decode groups of four base64 characters into bytes; `=` padding (a
character with no alphabet value) is accepted only as the tail of the
final group. -/
def b64decodeGroups : List Char → Option (List Nat)
  | [] => some []
  | c1 :: c2 :: c3 :: c4 :: rest =>
    match b64Val c1, b64Val c2, b64Val c3, b64Val c4 with
    | some v1, some v2, some v3, some v4 =>
      (b64decodeGroups rest).map
        (fun bs => (v1 * 4 + v2 / 16) :: (v2 % 16 * 16 + v3 / 4) :: (v3 % 4 * 64 + v4) :: bs)
    | some v1, some v2, some v3, none =>
      if c4 = '=' && rest.isEmpty then some [v1 * 4 + v2 / 16, v2 % 16 * 16 + v3 / 4]
      else none
    | some v1, some v2, none, none =>
      if c3 = '=' && c4 = '=' && rest.isEmpty then some [v1 * 4 + v2 / 16]
      else none
    | _, _, _, _ => none
  | _ => none

/-- Python `base64.b64decode` applied to a decoded-JSON value: a
`TypeError` on non-strings; on strings, characters outside the alphabet
and padding are discarded (`validate=False` default), then the length
must be a multiple of four and the groups must decode
(`binascii.Error` otherwise). -/
def pyB64decode (j : Json) : Except PyErr (List Nat) :=
  match j with
  | Json.str s =>
    let kept := s.data.filter (fun c => b64Alphabet.contains c || c = '=')
    if kept.length % 4 = 0 then
      match b64decodeGroups kept with
      | some bs => Except.ok bs
      | none => Except.error PyErr.other
    else Except.error PyErr.other
  | _ => Except.error PyErr.other

/-! ## The webhook router and handlers (src/app.py lines 80-289)

The four event handlers are collaborators the router invokes for their
side effects (console logging); the model records each invocation in a
`HandlerCall` list and keeps the Python control flow, in particular the
`AttributeError` a handler raises when a `.get` receiver is not a dict
(caught by the webhook's blanket `except`, 500). -/

/-- One handler invocation together with the payload it received. -/
inductive HandlerCall where
  | message (d : Json)
  | userStatus (d : Json)
  | receipt (d : Json)
  | suggestion (d : Json)
  deriving DecidableEq

/-- Text extraction of `handle_message` (src/app.py lines 222-227):
`data.get('textEvent', {}).get('text')`, falling back — when that value
is falsy — to `data.get('text', 'Mensaje sin texto')`. -/
def extractedText (data : Json) : Except PyErr Json := do
  let messageContent ← dictGet data "textEvent" (Json.obj [])
  let t1 ← dictGet messageContent "text" Json.null
  if pyTruthy t1 then pure t1 else dictGet data "text" (Json.str "Mensaje sin texto")

/-- Model of `handle_message` (lines 209-243): the field reads, the text
extraction and the `text_content.lower()` call, each of which can raise
`AttributeError`. -/
def handleMessage (data : Json) : Except PyErr Unit := do
  let _ ← dictGet data "senderPhoneNumber" (Json.str "Desconocido")
  let _ ← dictGet data "messageId" (Json.str "ID_No_Disponible")
  let _ ← dictGet data "sendTime" (Json.str "Timestamp_No_Disponible")
  let t ← extractedText data
  let _ ← pyLower t
  pure ()

/-- Model of `handle_suggestion_response` (lines 249-271). -/
def handleSuggestionResponse (data : Json) : Except PyErr Unit := do
  let _ ← dictGet data "senderPhoneNumber" (Json.str "Desconocido")
  let _ ← dictGet data "messageId" (Json.str "ID_No_Disponible")
  let sr ← dictGet data "suggestionResponse" (Json.obj [])
  let _ ← dictGet sr "postbackData" (Json.str "")
  let _ ← dictGet sr "text" (Json.str "")
  pure ()

/-- Model of `handle_user_status` (lines 277-282). -/
def handleUserStatus (data : Json) : Except PyErr Unit := do
  let us ← dictGet data "userStatus" (Json.obj [])
  let _ ← dictGet data "senderPhoneNumber" (Json.str "Unknown")
  let _ ← dictGet us "isTyping" (Json.bool false)
  pure ()

/-- Model of `handle_receipt` (lines 284-289). -/
def handleReceipt (data : Json) : Except PyErr Unit := do
  let receipt ← dictGet data "receipt" (Json.obj [])
  let _ ← dictGet receipt "messageId" (Json.str "Unknown")
  let _ ← dictGet receipt "receiptType" (Json.str "Unknown")
  pure ()

/-- Model of `detect_event_type` (lines 190-203): successive `in` tests
in the order message, userStatus, receipt, suggestionResponse. -/
def detectEventType (data : Json) : Except PyErr String := do
  if ← pyIn "message" data then pure "message"
  else if ← pyIn "userStatus" data then pure "userStatus"
  else if ← pyIn "receipt" data then pure "receipt"
  else if ← pyIn "suggestionResponse" data then pure "suggestionResponse"
  else pure "unknown"

/-- JSON body `{"error": msg}` of the failure responses. -/
def errBody (msg : String) : Json := Json.obj [("error", Json.str msg)]

/-- JSON body `{"status": "success"}` of the acknowledgment response. -/
def successBody : Json := Json.obj [("status", Json.str "success")]

/-- Outcome of the routing stage: either a status/body pair or a pending
Python exception, together with the handler invocations made. -/
abbrev RouteOut := Except PyErr (Nat × Json) × List HandlerCall

/-- Invoke one handler: the invocation is recorded either way, and an
exception it raises keeps propagating. -/
def runHandler (call : HandlerCall) (r : Except PyErr Unit) : RouteOut :=
  match r with
  | Except.ok _ => (Except.ok (200, successBody), [call])
  | Except.error e => (Except.error e, [call])

/-- Relay dispatch on `attributes['message_type']` (lines 146-153):
`SUGGESTION_RESPONSE`, `TEXT` and `message` are dispatched, anything
else is logged and dropped. -/
def relayDispatch (messageType realData : Json) : RouteOut :=
  if messageType = Json.str "SUGGESTION_RESPONSE" then
    runHandler (HandlerCall.suggestion realData) (handleSuggestionResponse realData)
  else if messageType = Json.str "TEXT" then
    runHandler (HandlerCall.message realData) (handleMessage realData)
  else if messageType = Json.str "message" then
    runHandler (HandlerCall.message realData) (handleMessage realData)
  else (Except.ok (200, successBody), [])

/-- Relay unwrapping (lines 128-153): base64-decode
`message_data['data']`, decode as UTF-8, `json.loads` it, and dispatch
the inner payload on the `message_type` attribute. -/
def relayBranch (messageData attributes : Json) : RouteOut :=
  match dictGet messageData "data" (Json.str "") with
  | Except.error e => (Except.error e, [])
  | Except.ok encodedData =>
    match pyB64decode encodedData with
    | Except.error e => (Except.error e, [])
    | Except.ok decodedBytes =>
      match utf8Decode decodedBytes with
      | none => (Except.error PyErr.other, [])
      | some chars =>
        match parseJson chars with
        | none => (Except.error PyErr.jsonDecode, [])
        | some realData =>
          match dictGet attributes "message_type" Json.null with
          | Except.error e => (Except.error e, [])
          | Except.ok mt => relayDispatch mt realData

/-- Direct dispatch (lines 155-170): classify with `detect_event_type`
and invoke the message, user-status or receipt handler; every other
classification — including `suggestionResponse` — only logs a warning. -/
def directDispatch (data : Json) : RouteOut :=
  match detectEventType data with
  | Except.error e => (Except.error e, [])
  | Except.ok et =>
    if et = "message" then runHandler (HandlerCall.message data) (handleMessage data)
    else if et = "userStatus" then runHandler (HandlerCall.userStatus data) (handleUserStatus data)
    else if et = "receipt" then runHandler (HandlerCall.receipt data) (handleReceipt data)
    else (Except.ok (200, successBody), [])

/-- Relay detection on `data.get('message', {}).get('attributes', {})`
(lines 124-128) followed by the relay or direct branch. -/
def envelopeStage (data : Json) : RouteOut :=
  match dictGet data "message" (Json.obj []) with
  | Except.error e => (Except.error e, [])
  | Except.ok messageData =>
    match dictGet messageData "attributes" (Json.obj []) with
    | Except.error e => (Except.error e, [])
    | Except.ok attributes =>
      if pyTruthy attributes then
        match pyIn "message_type" attributes with
        | Except.error e => (Except.error e, [])
        | Except.ok hasMT =>
          if hasMT then relayBranch messageData attributes else directDispatch data
      else directDispatch data

/-- Routing of a truthy parsed payload (lines 117-179): the
clientToken/secret short-circuit, then the envelope stage. -/
def routePayload (data : Json) : RouteOut :=
  match pyIn "clientToken" data with
  | Except.error e => (Except.error e, [])
  | Except.ok ct =>
    match (if ct then pyIn "secret" data else Except.ok false) with
    | Except.error e => (Except.error e, [])
    | Except.ok sec =>
      if ct && sec then
        match dictGet data "secret" Json.null with
        | Except.error e => (Except.error e, [])
        | Except.ok v => (Except.ok (200, Json.obj [("secret", v)]), [])
      else envelopeStage data

/-- Model of `request.get_json()` as the code manifestly expects it to
behave (it is a Flask collaborator): an absent body yields `None`
(falsy, so the webhook answers "No data received"), an unparsable body
raises `json.JSONDecodeError`, and otherwise the decoded value is
returned. -/
def getJson : Option String → Except PyErr Json
  | none => Except.ok Json.null
  | some s =>
    match parseJson s.data with
    | some j => Except.ok j
    | none => Except.error PyErr.jsonDecode

/-- HTTP response and handler invocations of one webhook request. -/
structure WebhookResult where
  status : Nat
  body : Json
  calls : List HandlerCall
  deriving DecidableEq

/-- Model of the `/webhook` endpoint (lines 80-187) for a request with
the given configured secret, raw body (`none` when absent) and
`X-Goog-Signature` header: signature verification, JSON parsing, the
falsiness check, routing, and the two `except` clauses mapping
`json.JSONDecodeError` to 400 and any other exception to 500. -/
def webhook (secretKey : String) (body : Option String) (signature : Option String) :
    WebhookResult :=
  let requestData := utf8Encode (body.getD "").data
  if verifySignature secretKey requestData signature = false then
    ⟨401, errBody "Invalid signature", []⟩
  else
    match getJson body with
    | Except.error _ => ⟨400, errBody "Invalid JSON", []⟩
    | Except.ok data =>
      if pyTruthy data = false then ⟨400, errBody "No data received", []⟩
      else
        match routePayload data with
        | (Except.ok (st, bd), calls) => ⟨st, bd, calls⟩
        | (Except.error PyErr.jsonDecode, calls) => ⟨400, errBody "Invalid JSON", calls⟩
        | (Except.error PyErr.other, calls) => ⟨500, errBody "Internal server error", calls⟩

/-! ## Vocabulary for stating the claims -/

/-- Precondition of claim C5, written from the claim: the payload
carries no relay envelope — `message`, when present, is an object whose
`attributes`, when present and truthy, is an object without a
`message_type` key.  (When `message` or a truthy `attributes` is a
non-object the code raises instead of classifying, which is why the
amended claim needs the object-shaped precondition.) -/
def noRelayEnvelope (kvs : List (String × Json)) : Bool :=
  match lookupKV kvs "message" with
  | none => true
  | some (Json.obj m) =>
    (match lookupKV m "attributes" with
     | none => true
     | some a =>
       if pyTruthy a then
         match a with
         | Json.obj akvs => (lookupKV akvs "message_type").isNone
         | _ => false
       else true)
  | some _ => false

/-- Classification and dispatch table of claim C5's amended reading:
top-level keys inspected in the order `message` > `userStatus` >
`receipt` > `suggestionResponse`, first match winning. -/
def claimClassification (kvs : List (String × Json)) : String :=
  if (lookupKV kvs "message").isSome then "message"
  else if (lookupKV kvs "userStatus").isSome then "userStatus"
  else if (lookupKV kvs "receipt").isSome then "receipt"
  else if (lookupKV kvs "suggestionResponse").isSome then "suggestionResponse"
  else "unknown"

/-- Handler invocations that claim C5's amended reading predicts for a
direct payload: message, user-status and receipt events are dispatched;
a `suggestionResponse` classification (and `unknown`) invokes nothing. -/
def claimDispatch (kvs : List (String × Json)) : List HandlerCall :=
  if (lookupKV kvs "message").isSome then [HandlerCall.message (Json.obj kvs)]
  else if (lookupKV kvs "userStatus").isSome then [HandlerCall.userStatus (Json.obj kvs)]
  else if (lookupKV kvs "receipt").isSome then [HandlerCall.receipt (Json.obj kvs)]
  else []

/-- Text-extraction rule of claim C8's amended reading, written from the
claim: the nested `textEvent.text` value when present and truthy,
otherwise the flat `text` value when present, otherwise the sentinel. -/
def claimMessageText (kvs : List (String × Json)) : Json :=
  let fallback := (lookupKV kvs "text").getD (Json.str "Mensaje sin texto")
  match (match lookupKV kvs "textEvent" with
         | some (Json.obj m) => lookupKV m "text"
         | _ => none) with
  | some t => if pyTruthy t then t else fallback
  | none => fallback

/-- The relay envelope of claim C3, wrapping an inner JSON value the way
the spec's round-trip property describes:
`{"message": {"data": base64(json(I)), "attributes": {"message_type": "TEXT"}}}`. -/
def relayWrap (inner : Json) : Json :=
  Json.obj
    [("message", Json.obj
      [("data", Json.str (String.mk (b64encode (utf8Encode (dumpsVal inner))))),
       ("attributes", Json.obj [("message_type", Json.str "TEXT")])])]

/-! ## Supporting lemmas -/

theorem lookupKV_isSome_not_isEmpty {kvs : List (String × Json)} {k : String}
    (h : (lookupKV kvs k).isSome) : kvs.isEmpty = false := by
  cases kvs with
  | nil => simp [lookupKV] at h
  | cons p rest => simp

/-! ## Claim C4 -/

/-- Claim C4 (confirmed): when the configured secret is absent or empty
(`os.getenv` returns `''` when the variable is absent, and Python's
`if not SECRET_KEY` treats the two alike), `verify_signature` returns
`True` for every body and every claimed signature — permissive mode. -/
theorem claim_C4_permissive_mode (requestData : List Nat) (signature : Option String) :
    verifySignature "" requestData signature = true := by
  simp [verifySignature]

/-! ## Claim C6 -/

/-- Claim C6 (confirmed): with a non-empty configured secret and no
`X-Goog-Signature` header, `verify_signature` returns `False` and the
webhook answers 401 `{"error": "Invalid signature"}` without invoking
any handler. -/
theorem claim_C6_missing_header_rejected (secretKey : String) (requestData : List Nat)
    (body : Option String) (h : secretKey ≠ "") :
    verifySignature secretKey requestData none = false ∧
      webhook secretKey body none = ⟨401, errBody "Invalid signature", []⟩ := by
  have hv : ∀ rd, verifySignature secretKey rd none = false := by
    intro rd
    simp [verifySignature, h]
  exact ⟨hv requestData, by simp [webhook, hv]⟩

/-- Witness for claim C6, at the spec's own scenario: secret
`"topsecret"`, body `{}`, no signature header. -/
theorem claim_C6_missing_header_rejected_witness :
    verifySignature "topsecret" (utf8Encode "{}".data) none = false ∧
      webhook "topsecret" (some "{}") none = ⟨401, errBody "Invalid signature", []⟩ :=
  claim_C6_missing_header_rejected "topsecret" (utf8Encode "{}".data) (some "{}")
    (by decide)

/-! ## Claim C2 -/

/-- Claim C2 (counterexample): the ownership-verification short-circuit
does not act "regardless of the signature header" — signature
verification runs first.  With secret `"topsecret"` configured, the
spec's scenario-B body and no signature header, the webhook answers
401, not 200 with the echoed secret. -/
theorem claim_C2_counterexample :
    webhook "topsecret" (some "\x7b\"clientToken\": \"abc\", \"secret\": \"xyz\"\x7d") none =
        ⟨401, errBody "Invalid signature", []⟩ ∧
      (webhook "topsecret" (some "\x7b\"clientToken\": \"abc\", \"secret\": \"xyz\"\x7d") none).status
        ≠ 200 := by
  constructor
  · have := claim_C6_missing_header_rejected "topsecret" []
      (some "\x7b\"clientToken\": \"abc\", \"secret\": \"xyz\"\x7d") (by decide)
    exact this.2
  · have := claim_C6_missing_header_rejected "topsecret" []
      (some "\x7b\"clientToken\": \"abc\", \"secret\": \"xyz\"\x7d") (by decide)
    rw [this.2]
    decide

/-- Claim C2 (amended): for every request that passes signature
verification and whose JSON body is an object containing both a
`clientToken` key and a `secret` key, the webhook responds 200 with the
received secret value echoed verbatim, whatever other keys are present —
the short-circuit takes priority over all other classification. -/
theorem claim_C2_verification_echo (secretKey : String) (body : Option String)
    (signature : Option String) (kvs : List (String × Json))
    (hsig : verifySignature secretKey (utf8Encode (body.getD "").data) signature = true)
    (hparse : getJson body = Except.ok (Json.obj kvs))
    (hct : (lookupKV kvs "clientToken").isSome)
    (hsec : (lookupKV kvs "secret").isSome) :
    webhook secretKey body signature =
      ⟨200, Json.obj [("secret", (lookupKV kvs "secret").getD Json.null)], []⟩ := by
  simp [webhook, hsig, hparse, pyTruthy, lookupKV_isSome_not_isEmpty hct,
    routePayload, pyIn, hct, hsec, dictGet]

/-- Witness for the amended claim C2: permissive secret, scenario-B
body, an extra key present, no signature header. -/
theorem claim_C2_verification_echo_witness :
    webhook "" (some "\x7b\"other\": 1, \"clientToken\": \"abc\", \"secret\": \"xyz\"\x7d") none =
      ⟨200, Json.obj [("secret", Json.str "xyz")], []⟩ :=
  claim_C2_verification_echo "" _ none
    [("other", Json.num 1), ("clientToken", Json.str "abc"), ("secret", Json.str "xyz")]
    (by decide) (by decide) (by decide) (by decide)

/-! ## Claim C5 -/

theorem runHandler_calls (call : HandlerCall) (r : Except PyErr Unit) :
    (runHandler call r).2 = [call] := by
  cases r <;> rfl

/-- Claim C5 (counterexample): a direct payload with a top-level
`suggestionResponse` key is classified `suggestionResponse`, but the
direct-dispatch branch has no case for it — no handler is invoked and
the request is acknowledged as an unknown event, contradicting the
claim's "dispatched to the suggestion handler". -/
theorem claim_C5_counterexample :
    detectEventType (Json.obj [("suggestionResponse", Json.obj [("postbackData", Json.str "p")])])
        = Except.ok "suggestionResponse" ∧
      routePayload (Json.obj [("suggestionResponse", Json.obj [("postbackData", Json.str "p")])])
        = (Except.ok (200, successBody), []) := by
  decide

/-- Claim C5 (amended): for an object payload that lacks the
clientToken/secret pair and carries no relay envelope (with `message`
and a truthy `attributes` object-shaped where present, since the code
raises otherwise), classification inspects top-level keys in the fixed
order `message` > `userStatus` > `receipt` > `suggestionResponse`
(`unknown` when none match), and the router dispatches the message,
user-status and receipt handlers accordingly — but a payload classified
`suggestionResponse` falls through to the unknown-warning branch and no
suggestion handler is invoked. -/
theorem claim_C5_direct_classification (kvs : List (String × Json))
    (hcs : ((lookupKV kvs "clientToken").isSome && (lookupKV kvs "secret").isSome) = false)
    (hshape : noRelayEnvelope kvs = true) :
    detectEventType (Json.obj kvs) = Except.ok (claimClassification kvs) ∧
      (routePayload (Json.obj kvs)).2 = claimDispatch kvs := by
  have hdet : detectEventType (Json.obj kvs) = Except.ok (claimClassification kvs) := by
    by_cases h1 : (lookupKV kvs "message").isSome <;>
      by_cases h2 : (lookupKV kvs "userStatus").isSome <;>
        by_cases h3 : (lookupKV kvs "receipt").isSome <;>
          by_cases h4 : (lookupKV kvs "suggestionResponse").isSome <;>
            simp [detectEventType, pyIn, claimClassification, h1, h2, h3, h4, bind, Except.bind,
              pure, Except.pure]
  refine ⟨hdet, ?_⟩
  have hdir : (directDispatch (Json.obj kvs)).2 = claimDispatch kvs := by
    rw [directDispatch, hdet]
    by_cases h1 : (lookupKV kvs "message").isSome <;>
      by_cases h2 : (lookupKV kvs "userStatus").isSome <;>
        by_cases h3 : (lookupKV kvs "receipt").isSome <;>
          by_cases h4 : (lookupKV kvs "suggestionResponse").isSome <;>
            simp [claimClassification, claimDispatch, h1, h2, h3, h4, runHandler_calls]
  have henv : envelopeStage (Json.obj kvs) = directDispatch (Json.obj kvs) := by
    rw [envelopeStage]
    simp only [dictGet]
    rcases hm : lookupKV kvs "message" with _ | mv
    · simp [hm, dictGet, lookupKV, pyTruthy]
    · rcases mv with _ | b | n | s | xs | m <;>
        simp [noRelayEnvelope, hm] at hshape
      simp only [hm, Option.getD_some, dictGet]
      rcases ha : lookupKV m "attributes" with _ | a
      · simp [ha, lookupKV, pyTruthy]
      · simp only [ha] at hshape
        simp only [ha, Option.getD_some]
        by_cases hta : pyTruthy a
        · simp only [hta, if_true, if_pos] at hshape ⊢
          rcases a with _ | b | n | s | xs | akvs <;> simp at hshape
          simp [pyIn, hshape]
        · simp [hta]
  have hroute : routePayload (Json.obj kvs) = envelopeStage (Json.obj kvs) := by
    rw [routePayload]
    simp only [pyIn]
    by_cases hct : (lookupKV kvs "clientToken").isSome
    · have hsec : (lookupKV kvs "secret").isSome = false := by
        rcases hs : (lookupKV kvs "secret").isSome
        · rfl
        · rw [hct, hs] at hcs
          exact absurd hcs (by simp)
      simp [hct, hsec, pyIn]
    · simp only [Bool.not_eq_true] at hct
      simp [hct]
  rw [hroute, henv, hdir]

/-- Witness for the amended claim C5, at a payload carrying both a
`receipt` key and a `suggestionResponse` key: precedence classifies it
`receipt` and only the receipt handler is invoked. -/
theorem claim_C5_direct_classification_witness :
    detectEventType (Json.obj [("receipt", Json.obj []), ("suggestionResponse", Json.obj [])])
        = Except.ok
          (claimClassification [("receipt", Json.obj []), ("suggestionResponse", Json.obj [])]) ∧
      (routePayload (Json.obj [("receipt", Json.obj []), ("suggestionResponse", Json.obj [])])).2
        = claimDispatch [("receipt", Json.obj []), ("suggestionResponse", Json.obj [])] :=
  claim_C5_direct_classification [("receipt", Json.obj []), ("suggestionResponse", Json.obj [])]
    (by decide) (by decide)

/-! ## Claim C7 -/

/-- Claim C7 (confirmed): when verification passes but the body is
absent or not valid JSON, the webhook answers 400 with a single-field
error body — `{"error": "No data received"}` for an absent body,
`{"error": "Invalid JSON"}` for a parse failure — and no handler is
invoked. -/
theorem claim_C7_malformed_input (secretKey : String) (signature : Option String) (s : String) :
    (verifySignature secretKey (utf8Encode "".data) signature = true →
        webhook secretKey none signature = ⟨400, errBody "No data received", []⟩) ∧
      (verifySignature secretKey (utf8Encode s.data) signature = true →
        parseJson s.data = none →
        webhook secretKey (some s) signature = ⟨400, errBody "Invalid JSON", []⟩) := by
  constructor
  · intro hv
    simp [webhook, hv, getJson, pyTruthy]
  · intro hv hp
    simp [webhook, hv, getJson, hp]

/-- Witness for claim C7: permissive secret, no header; an absent body
and the unparsable body `{`. -/
theorem claim_C7_malformed_input_witness :
    webhook "" none none = ⟨400, errBody "No data received", []⟩ ∧
      webhook "" (some "\x7b") none = ⟨400, errBody "Invalid JSON", []⟩ :=
  ⟨(claim_C7_malformed_input "" none "\x7b").1 (by decide),
    (claim_C7_malformed_input "" none "\x7b").2 (by decide) (by decide)⟩

/-! ## Claim C10 -/

/-- Claim C10 (confirmed): when verification passes and the body parses
to a falsy JSON value — the empty object `{}`, `null`, and likewise
`0`, `""`, `[]` or `false` — the webhook treats it as absent data and
answers 400 `{"error": "No data received"}` without invoking any
handler, rather than classifying it as an unknown event. -/
theorem claim_C10_falsy_payload_rejected (secretKey : String) (signature : Option String)
    (s : String) (j : Json)
    (hsig : verifySignature secretKey (utf8Encode s.data) signature = true)
    (hparse : parseJson s.data = some j)
    (hfalsy : pyTruthy j = false) :
    webhook secretKey (some s) signature = ⟨400, errBody "No data received", []⟩ := by
  simp [webhook, hsig, getJson, hparse, hfalsy]

/-- Witness for claim C10 at the empty-object body. -/
theorem claim_C10_falsy_payload_rejected_witness :
    webhook "" (some "{}") none = ⟨400, errBody "No data received", []⟩ :=
  claim_C10_falsy_payload_rejected "" none "{}" (Json.obj [])
    (by decide) (by decide) (by decide)

/-! ## Claim C8 -/

/-- Claim C8 (counterexample): the message handler does not take the
nested text whenever it is *present* — a present-but-empty
`textEvent.text` is falsy, so the code falls back to the flat `text`
value.  Here the nested location holds `""` yet `"flat"` is
extracted. -/
theorem claim_C8_counterexample :
    extractedText
        (Json.obj [("textEvent", Json.obj [("text", Json.str "")]), ("text", Json.str "flat")])
        = Except.ok (Json.str "flat") ∧
      extractedText
          (Json.obj [("textEvent", Json.obj [("text", Json.str "")]), ("text", Json.str "flat")])
        ≠ Except.ok (Json.str "") := by
  decide

/-- Claim C8 (amended): for every payload handed to the message handler
whose `textEvent` value, when present, is an object (the handler raises
otherwise), the extracted text is the nested `textEvent.text` value
when present *and truthy*, otherwise the flat `text` value when
present, otherwise the sentinel `'Mensaje sin texto'`. -/
theorem claim_C8_text_extraction (kvs : List (String × Json))
    (hte : match lookupKV kvs "textEvent" with
      | none => True
      | some (Json.obj _) => True
      | some _ => False) :
    extractedText (Json.obj kvs) = Except.ok (claimMessageText kvs) := by
  rcases hl : lookupKV kvs "textEvent" with _ | te
  · simp [extractedText, dictGet, hl, lookupKV, pyTruthy, claimMessageText, bind, Except.bind,
      pure, Except.pure]
  · rw [hl] at hte
    rcases te with _ | b | n | s | xs | m <;> simp at hte
    rcases hn : lookupKV m "text" with _ | t
    · simp [extractedText, dictGet, hl, hn, pyTruthy, claimMessageText, bind, Except.bind,
        pure, Except.pure]
    · by_cases ht : pyTruthy t = true
      · simp [extractedText, dictGet, hl, hn, ht, claimMessageText, bind, Except.bind,
          pure, Except.pure]
      · simp only [Bool.not_eq_true] at ht
        simp [extractedText, dictGet, hl, hn, ht, claimMessageText, bind, Except.bind,
          pure, Except.pure]

/-- Witness for the amended claim C8, at a payload with a truthy nested
text and a different flat text: the nested one wins. -/
theorem claim_C8_text_extraction_witness :
    extractedText
        (Json.obj
          [("textEvent", Json.obj [("text", Json.str "nested")]), ("text", Json.str "flat")])
        = Except.ok
          (claimMessageText
            [("textEvent", Json.obj [("text", Json.str "nested")]), ("text", Json.str "flat")]) :=
  claim_C8_text_extraction
    [("textEvent", Json.obj [("text", Json.str "nested")]), ("text", Json.str "flat")]
    (by exact True.intro)

/-! ## Claim C1: digest and encoding shape lemmas -/

theorem beBytes_length : ∀ k v, (beBytes k v).length = k
  | 0, _ => rfl
  | k + 1, v => by simp [beBytes, beBytes_length k]

theorem sha512_length (msg : List Nat) : (sha512 msg).length = 64 := by
  simp [sha512, beBytes_length]

theorem hmacSha512_length (key msg : List Nat) : (hmacSha512 key msg).length = 64 := by
  rw [hmacSha512]
  exact sha512_length _

theorem b64encode_length : ∀ l : List Nat, (b64encode l).length = (l.length + 2) / 3 * 4
  | [] => rfl
  | [a] => by simp [b64encode]
  | [a, b] => by simp [b64encode]
  | a :: b :: c :: rest => by
      simp [b64encode, b64encode_length rest]
      omega

theorem b64Char_not_ws (n : Nat) : isPyWs (b64Char n) = false := by
  by_cases h : n < 64
  · exact (by decide : ∀ i < 64, isPyWs (b64Char i) = false) n h
  · unfold b64Char
    rw [List.getD_eq_default]
    · decide
    · have hlen : b64Alphabet.length = 64 := by decide
      omega

theorem b64encode_not_ws : ∀ (l : List Nat), ∀ c ∈ b64encode l, isPyWs c = false
  | [], c, hc => by simp [b64encode] at hc
  | [a], c, hc => by
      simp [b64encode] at hc
      rcases hc with h | h | h <;> subst h <;> first | exact b64Char_not_ws _ | decide
  | [a, b], c, hc => by
      simp [b64encode] at hc
      rcases hc with h | h | h | h <;> subst h <;> first | exact b64Char_not_ws _ | decide
  | a :: b :: d :: rest, c, hc => by
      simp only [b64encode, List.mem_cons] at hc
      rcases hc with h | h | h | h | h
      · subst h; exact b64Char_not_ws _
      · subst h; exact b64Char_not_ws _
      · subst h; exact b64Char_not_ws _
      · subst h; exact b64Char_not_ws _
      · exact b64encode_not_ws rest c h

theorem encodeChunks_nil : ∀ fuel, encodeChunks fuel [] = []
  | 0 => rfl
  | _ + 1 => rfl

theorem encodeChunks_small : ∀ (fuel : Nat) (a : Nat) (t : List Nat),
    (a :: t).length ≤ 57 → encodeChunks fuel (a :: t) = b64encode (a :: t) ++ [ '\n' ]
  | 0, a, t, _ => rfl
  | fuel + 1, a, t, h => by
      have hstep : encodeChunks (fuel + 1) (a :: t)
          = b64encode ((a :: t).take 57) ++ '\n' :: encodeChunks fuel ((a :: t).drop 57) := rfl
      rw [hstep, List.take_of_length_le h, List.drop_eq_nil_of_le h, encodeChunks_nil]

/-- `base64.encodebytes` of a 64-byte digest: one full 76-character line
and one 12-character line, each newline-terminated. -/
theorem encodebytes_64 (l : List Nat) (h : l.length = 64) :
    encodebytes l = b64encode (l.take 57) ++ '\n' :: (b64encode (l.drop 57) ++ [ '\n' ]) := by
  rcases l with _ | ⟨a, t⟩
  · simp at h
  · rw [encodebytes, h]
    have hstep : encodeChunks 64 (a :: t)
        = b64encode ((a :: t).take 57) ++ '\n' :: encodeChunks 63 ((a :: t).drop 57) := rfl
    rw [hstep]
    have hd : ((a :: t).drop 57).length = 7 := by
      rw [List.length_drop, h]
    rcases hdrop : (a :: t).drop 57 with _ | ⟨b, t2⟩
    · rw [hdrop] at hd
      simp at hd
    · rw [hdrop] at hd
      rw [encodeChunks_small 63 b t2 (by omega)]

theorem stripChars_shape (x y : List Char) (hx : x ≠ []) (hy : y ≠ [])
    (hxw : ∀ c ∈ x, isPyWs c = false) (hyw : ∀ c ∈ y, isPyWs c = false) :
    stripChars (x ++ '\n' :: (y ++ [ '\n' ])) = x ++ '\n' :: y := by
  rcases x with _ | ⟨a, x1⟩
  · exact absurd rfl hx
  · have ha : isPyWs a = false := hxw a (by simp)
    rw [stripChars]
    rw [List.cons_append, List.dropWhile_cons]
    rw [ha]
    simp only [Bool.false_eq_true, if_false]
    have hyrev : ∃ b y1, y.reverse = b :: y1 := by
      rcases hr : y.reverse with _ | ⟨b, y1⟩
      · rw [List.reverse_eq_nil_iff] at hr
        exact absurd hr hy
      · exact ⟨b, y1, rfl⟩
    rcases hyrev with ⟨b, y1, hr⟩
    have hb : isPyWs b = false := by
      apply hyw
      rw [← List.mem_reverse, hr]
      simp
    have hrev : (a :: (x1 ++ '\n' :: (y ++ [ '\n' ]))).reverse
        = '\n' :: (b :: (y1 ++ '\n' :: (a :: x1).reverse)) := by
      simp [List.reverse_append, hr]
    rw [hrev]
    rw [List.dropWhile_cons]
    have hnl : isPyWs '\n' = true := by decide
    rw [hnl]
    simp only [if_true]
    rw [List.dropWhile_cons, hb]
    simp only [Bool.false_eq_true, if_false]
    have hback : b :: (y1 ++ '\n' :: (a :: x1).reverse)
        = y.reverse ++ '\n' :: (a :: x1).reverse := by
      rw [hr]
      simp
    rw [hback]
    simp [List.reverse_append]

/-- The signature `verify_signature` computes for a configured secret:
its MIME-base64 form, stripped — two base64 lines joined by the
embedded newline that `strip()` does not remove. -/
theorem expectedSignature_shape (secretKey : String) (requestData : List Nat) :
    (expectedSignature secretKey requestData).data
      = b64encode ((hmacSha512 (utf8Encode secretKey.data) requestData).take 57) ++
        '\n' :: b64encode ((hmacSha512 (utf8Encode secretKey.data) requestData).drop 57) := by
  have hlen : (hmacSha512 (utf8Encode secretKey.data) requestData).length = 64 :=
    hmacSha512_length _ _
  have htake : ((hmacSha512 (utf8Encode secretKey.data) requestData).take 57).length = 57 := by
    rw [List.length_take]
    omega
  have hdrop : ((hmacSha512 (utf8Encode secretKey.data) requestData).drop 57).length = 7 := by
    rw [List.length_drop]
    omega
  rw [expectedSignature, encodebytes_64 _ hlen]
  rw [stripChars_shape]
  · intro h
    have := congrArg List.length h
    rw [b64encode_length, htake] at this
    simp at this
  · intro h
    have := congrArg List.length h
    rw [b64encode_length, hdrop] at this
    simp at this
  · exact b64encode_not_ws _
  · exact b64encode_not_ws _

theorem singleLine_length (secretKey : String) (requestData : List Nat) :
    (b64encode (hmacSha512 (utf8Encode secretKey.data) requestData)).length = 88 := by
  rw [b64encode_length, hmacSha512_length]

/-- The stripped MIME encoding `verify_signature` compares against is 89
characters long — it is not the 88-character single-line base64 form of
the 64-byte digest, because of the embedded newline. -/
theorem expectedSignature_ne_single_line (secretKey : String) (requestData : List Nat) :
    expectedSignature secretKey requestData
      ≠ String.mk (b64encode (hmacSha512 (utf8Encode secretKey.data) requestData)) := by
  intro hcon
  have hlen : (hmacSha512 (utf8Encode secretKey.data) requestData).length = 64 :=
    hmacSha512_length _ _
  have hld := congrArg (fun s : String => s.data.length) hcon
  simp only at hld
  rw [expectedSignature_shape] at hld
  rw [List.length_append, List.length_cons] at hld
  rw [b64encode_length, b64encode_length] at hld
  rw [List.length_take, List.length_drop, hlen] at hld
  rw [singleLine_length] at hld
  omega

theorem singleLine_ne_empty (secretKey : String) (requestData : List Nat) :
    String.mk (b64encode (hmacSha512 (utf8Encode secretKey.data) requestData)) ≠ "" := by
  intro hcon
  have hld := congrArg (fun s : String => s.data.length) hcon
  simp only at hld
  rw [singleLine_length] at hld
  simp at hld

/-- Claim C1 (counterexample): the MAC the claim describes — the
HMAC-SHA-512 of the body keyed by the secret, base64-encoded with
padding as a single line with no embedded newline — does *not* verify.
`verify_signature` compares against `base64.encodebytes(...).strip()`,
and for a 64-byte digest that 89-character string keeps an embedded
newline after character 76, so the comparison with the 88-character
single-line form fails.  Exhibited at secret `"a"` and the empty
body. -/
theorem claim_C1_counterexample :
    verifySignature "a" []
        (some (String.mk (b64encode (hmacSha512 (utf8Encode "a".data) [])))) = false := by
  rw [verifySignature]
  rw [if_neg (by decide : ¬("a" : String) = "")]
  rw [if_neg (singleLine_ne_empty "a" [])]
  rw [compareDigest]
  exact beq_eq_false_iff_ne.mpr (expectedSignature_ne_single_line "a" [])

/-- Claim C1 (amended): for every non-empty secret and every body, the
signature that `verify_signature` itself computes — the HMAC-SHA-512
digest encoded with MIME base64 (`base64.encodebytes`) and stripped of
outer whitespace, which for the 64-byte digest is an 89-character
string with an embedded newline after character 76, not a single
line — round-trips: `verify(B, mac(S, B), S) = true`. -/
theorem claim_C1_roundtrip (secretKey : String) (requestData : List Nat)
    (h : secretKey ≠ "") :
    verifySignature secretKey requestData (some (expectedSignature secretKey requestData))
        = true ∧
      '\n' ∈ (expectedSignature secretKey requestData).data := by
  have hshape := expectedSignature_shape secretKey requestData
  have hmem : '\n' ∈ (expectedSignature secretKey requestData).data := by
    rw [hshape]
    simp
  refine ⟨?_, hmem⟩
  have hne : expectedSignature secretKey requestData ≠ "" := by
    intro hcon
    rw [hcon] at hmem
    simp at hmem
  rw [verifySignature]
  rw [if_neg h]
  rw [if_neg hne]
  rw [compareDigest]
  exact beq_self_eq_true _

/-- Witness for the amended claim C1 at secret `"a"` and the empty
body. -/
theorem claim_C1_roundtrip_witness :
    verifySignature "a" [] (some (expectedSignature "a" [])) = true ∧
      '\n' ∈ (expectedSignature "a" []).data :=
  claim_C1_roundtrip "a" [] (by decide)

/-! ## Claim C3: character, digit and hexadecimal lemmas -/

theorem char_toNat_lt (c : Char) : c.toNat < 1114112 := by
  have h := c.valid
  rcases h with h | ⟨h1, h2⟩
  · exact Nat.lt_trans h (by decide)
  · exact h2

theorem char_not_surrogate (c : Char) : ¬(55296 ≤ c.toNat ∧ c.toNat < 57344) := by
  have h := c.valid
  unfold UInt32.isValidChar Nat.isValidChar at h
  have he : c.toNat = c.val.toNat := rfl
  omega

theorem digitChar_isDigit : ∀ d < 10, isDigitCh (digitChar d) = true := by decide

theorem digitVal_digitChar : ∀ d < 10, digitVal (digitChar d) = d := by decide

theorem digitChar_ne_zero : ∀ d, 1 ≤ d → d < 10 → digitChar d ≠ '0' := by decide

theorem isDigitCh_ne_minus {c : Char} (h : isDigitCh c = true) : ¬c = '-' := by
  intro hc
  subst hc
  exact absurd h (by decide)

theorem hexVal_hexDig : ∀ d < 16, hexVal (hexDig d) = some d := by decide

theorem hex4Val_toHex4 (n : Nat) (h : n < 65536) :
    hex4Val (hexDig (n / 4096 % 16)) (hexDig (n / 256 % 16)) (hexDig (n / 16 % 16))
        (hexDig (n % 16)) = some n := by
  have h1 := hexVal_hexDig (n / 4096 % 16) (Nat.mod_lt _ (by decide))
  have h2 := hexVal_hexDig (n / 256 % 16) (Nat.mod_lt _ (by decide))
  have h3 := hexVal_hexDig (n / 16 % 16) (Nat.mod_lt _ (by decide))
  have h4 := hexVal_hexDig (n % 16) (Nat.mod_lt _ (by decide))
  simp [hex4Val, h1, h2, h3, h4]
  omega

/-! ## Claim C3: decimal numeral round trip -/

theorem natChars_ne_nil : ∀ fuel n, n < fuel → natChars fuel n ≠ []
  | fuel + 1, n, _ => by
      rw [natChars]
      by_cases h10 : n < 10
      · rw [if_pos h10]
        simp
      · rw [if_neg h10]
        simp

theorem natChars_digits : ∀ fuel n, n < fuel → ∀ c ∈ natChars fuel n, isDigitCh c = true
  | 0, n, h, _, _ => absurd h (by omega)
  | fuel + 1, n, h, c, hc => by
      rw [natChars] at hc
      by_cases h10 : n < 10
      · rw [if_pos h10] at hc
        simp at hc
        subst hc
        exact digitChar_isDigit n h10
      · rw [if_neg h10] at hc
        simp at hc
        rcases hc with hc | hc
        · exact natChars_digits fuel (n / 10) (by omega) c hc
        · subst hc
          exact digitChar_isDigit _ (Nat.mod_lt _ (by decide))

theorem natChars_head_ne_zero : ∀ fuel n, n < fuel → 1 ≤ n →
    ∀ c ds, natChars fuel n = c :: ds → c ≠ '0'
  | 0, n, h, _, _, _, _ => absurd h (by omega)
  | fuel + 1, n, h, h1, c, ds, heq => by
      rw [natChars] at heq
      by_cases h10 : n < 10
      · rw [if_pos h10] at heq
        injection heq with heq1 _
        subst heq1
        exact digitChar_ne_zero n h1 h10
      · rw [if_neg h10] at heq
        rcases hpre : natChars fuel (n / 10) with _ | ⟨d, ds2⟩
        · exact absurd hpre (natChars_ne_nil fuel (n / 10) (by omega))
        · rw [hpre] at heq
          simp only [List.cons_append] at heq
          injection heq with heq1 _
          rw [← heq1]
          exact natChars_head_ne_zero fuel (n / 10) (by omega) (by omega) d ds2 hpre

theorem foldDigits_natChars : ∀ fuel n acc, n < fuel →
    List.foldl (fun a ch => a * 10 + digitVal ch) acc (natChars fuel n)
      = acc * 10 ^ (natChars fuel n).length + n
  | 0, n, _, h => absurd h (by omega)
  | fuel + 1, n, acc, h => by
      rw [natChars]
      by_cases h10 : n < 10
      · rw [if_pos h10]
        simp [digitVal_digitChar n h10]
      · rw [if_neg h10]
        rw [List.foldl_append]
        rw [foldDigits_natChars fuel (n / 10) acc (by omega)]
        simp only [List.foldl_cons, List.foldl_nil, List.length_append, List.length_cons,
          List.length_nil]
        rw [digitVal_digitChar _ (Nat.mod_lt _ (by decide))]
        have hdm : n / 10 * 10 + n % 10 = n := by omega
        generalize (natChars fuel (n / 10)).length = L
        rw [pow_succ]
        calc (acc * 10 ^ L + n / 10) * 10 + n % 10
            = acc * 10 ^ L * 10 + (n / 10 * 10 + n % 10) := by ring
          _ = acc * (10 ^ L * 10) + n := by rw [hdm]; ring

theorem parseDigitsAcc_chain : ∀ (ds : List Char) (acc : Nat) (rest : List Char),
    (∀ c ∈ ds, isDigitCh c = true) →
    parseDigitsAcc acc (ds ++ rest)
      = parseDigitsAcc (List.foldl (fun a ch => a * 10 + digitVal ch) acc ds) rest
  | [], acc, rest, _ => rfl
  | c :: ds, acc, rest, h => by
      simp only [List.cons_append, List.foldl_cons]
      rw [parseDigitsAcc]
      rw [if_pos (h c (by simp))]
      exact parseDigitsAcc_chain ds _ rest (fun d hd => h d (by simp [hd]))

theorem restDelim_not_digit (rest : List Char) (h : restDelim rest = true) :
    headIsDigit rest = false := by
  rcases rest with _ | ⟨c, t⟩
  · rfl
  · simp only [restDelim, Bool.or_eq_true, decide_eq_true_eq] at h
    rcases h with (h1 | h1) | h1 <;> subst h1 <;> rfl

theorem restDelim_not_float (rest : List Char) (h : restDelim rest = true) :
    headIsFloatStart rest = false := by
  rcases rest with _ | ⟨c, t⟩
  · rfl
  · simp only [restDelim, Bool.or_eq_true, decide_eq_true_eq] at h
    rcases h with (h1 | h1) | h1 <;> subst h1 <;> rfl

theorem parseDigitsAcc_stop (acc : Nat) (rest : List Char) (h : restDelim rest = true) :
    parseDigitsAcc acc rest = (acc, rest) := by
  rcases rest with _ | ⟨c, t⟩
  · rfl
  · rw [parseDigitsAcc]
    have hd : isDigitCh c = false := by
      have := restDelim_not_digit (c :: t) h
      simpa using this
    rw [hd]
    simp

theorem parseUNum_digits (c : Char) (ds rest : List Char)
    (hc : isDigitCh c = true) (hds : ∀ d ∈ ds, isDigitCh d = true)
    (hlz : c = '0' → ds = []) (hrest : restDelim rest = true) :
    parseUNum ((c :: ds) ++ rest)
      = some (List.foldl (fun a ch => a * 10 + digitVal ch) (digitVal c) ds, rest) := by
  simp only [List.cons_append]
  rw [parseUNum.eq_def]
  simp only []
  rw [if_pos hc]
  have hno : (c = '0' && headIsDigit (ds ++ rest)) = false := by
    by_cases hc0 : c = '0'
    · rw [hlz hc0]
      simp only [List.nil_append]
      rw [restDelim_not_digit rest hrest]
      simp
    · simp [hc0]
  rw [hno]
  simp only [Bool.false_eq_true, if_false]
  rw [parseDigitsAcc_chain ds (digitVal c) rest hds]
  rw [parseDigitsAcc_stop _ rest hrest]
  rw [restDelim_not_float rest hrest]
  simp

theorem parseUNum_natChars (n : Nat) (rest : List Char) (hrest : restDelim rest = true) :
    parseUNum (natChars (n + 1) n ++ rest) = some (n, rest) := by
  rcases hnc : natChars (n + 1) n with _ | ⟨c, ds⟩
  · exact absurd hnc (natChars_ne_nil (n + 1) n (by omega))
  · have hc : isDigitCh c = true :=
      natChars_digits (n + 1) n (by omega) c (by rw [hnc]; simp)
    have hds : ∀ d ∈ ds, isDigitCh d = true := fun d hd =>
      natChars_digits (n + 1) n (by omega) d (by rw [hnc]; simp [hd])
    have hlz : c = '0' → ds = [] := by
      intro hc0
      by_cases hn1 : 1 ≤ n
      · exact absurd hc0 (natChars_head_ne_zero (n + 1) n (by omega) hn1 c ds hnc)
      · have hn0 : n = 0 := by omega
        subst hn0
        have : natChars 1 0 = ['0'] := rfl
        rw [this] at hnc
        injection hnc with _ h2
        exact h2.symm
    have hfold := foldDigits_natChars (n + 1) n 0 (by omega)
    rw [hnc] at hfold
    simp only [List.foldl_cons, zero_mul, zero_add, Nat.zero_mul, Nat.zero_add] at hfold
    rw [parseUNum_digits c ds rest hc hds hlz hrest, hfold]

theorem parseNumber_intChars (i : Int) (rest : List Char) (hrest : restDelim rest = true) :
    parseNumber (intChars i ++ rest) = some (Json.num i, rest) := by
  rw [intChars]
  by_cases hneg : i < 0
  · rw [if_pos hneg]
    simp only [List.cons_append]
    rw [parseNumber]
    rw [if_pos rfl]
    rw [parseUNum_natChars _ rest hrest]
    have hi : (i.natAbs : Int) * (-1) = i := by omega
    simp only [Option.map, Option.bind]
    rw [hi]
  · rw [if_neg hneg]
    rcases hnc : natChars (i.natAbs + 1) i.natAbs with _ | ⟨c, ds⟩
    · exact absurd hnc (natChars_ne_nil _ _ (by omega))
    · have hc : isDigitCh c = true :=
        natChars_digits (i.natAbs + 1) i.natAbs (by omega) c (by rw [hnc]; simp)
      simp only [List.cons_append]
      rw [parseNumber.eq_def]
      simp only []
      rw [if_neg (isDigitCh_ne_minus hc)]
      rw [← List.cons_append, ← hnc]
      rw [parseUNum_natChars _ rest hrest]
      have hi : ((i.natAbs : Int)) = i := by omega
      simp [hi]

/-! ## Claim C3: string escape round trip -/

theorem parseStringBody_escape : ∀ (cs rest : List Char),
    parseStringBody (escapeStr cs ++ '"' :: rest) = some (cs, rest)
  | [], rest => by
      simp only [escapeStr, List.nil_append]
      rw [parseStringBody]
      simp
  | c :: cs, rest => by
      have IH := parseStringBody_escape cs rest
      simp only [escapeStr, List.append_assoc]
      rw [escapeChar]
      by_cases h1 : c = '"'
      · rw [if_pos h1]
        subst h1
        simp only [List.cons_append, List.nil_append]
        rw [parseStringBody]
        simp [parseEscape, escCode, IH]
      · rw [if_neg h1]
        by_cases h2 : c = '\\'
        · rw [if_pos h2]
          subst h2
          simp only [List.cons_append, List.nil_append]
          rw [parseStringBody]
          simp [parseEscape, escCode, IH]
        · rw [if_neg h2]
          by_cases h3 : c = Char.ofNat 8
          · rw [if_pos h3]
            subst h3
            simp only [List.cons_append, List.nil_append]
            rw [parseStringBody]
            simp [parseEscape, escCode, IH]
          · rw [if_neg h3]
            by_cases h4 : c = Char.ofNat 9
            · rw [if_pos h4]
              subst h4
              simp only [List.cons_append, List.nil_append]
              rw [parseStringBody]
              simp [parseEscape, escCode, IH]
            · rw [if_neg h4]
              by_cases h5 : c = '\n'
              · rw [if_pos h5]
                subst h5
                simp only [List.cons_append, List.nil_append]
                rw [parseStringBody]
                simp [parseEscape, escCode, IH]
              · rw [if_neg h5]
                by_cases h6 : c = Char.ofNat 12
                · rw [if_pos h6]
                  subst h6
                  simp only [List.cons_append, List.nil_append]
                  rw [parseStringBody]
                  simp [parseEscape, escCode, IH]
                · rw [if_neg h6]
                  by_cases h7 : c = '\r'
                  · rw [if_pos h7]
                    subst h7
                    simp only [List.cons_append, List.nil_append]
                    rw [parseStringBody]
                    simp [parseEscape, escCode, IH]
                  · rw [if_neg h7]
                    by_cases h8 : c.toNat < 32 || 126 < c.toNat
                    · rw [if_pos h8]
                      by_cases h9 : c.toNat < 65536
                      · rw [if_pos h9]
                        rw [toHex4]
                        simp only [List.cons_append, List.nil_append]
                        rw [parseStringBody]
                        rw [if_neg (by decide : ¬('\\' : Char) = '"'),
                          if_pos (rfl : ('\\' : Char) = '\\')]
                        rw [parseEscape]
                        rw [if_pos (rfl : ('u' : Char) = 'u')]
                        rw [parseUnicodeEsc]
                        have hs := char_not_surrogate c
                        simp only [hex4Val_toHex4 c.toNat h9]
                        rw [if_neg (by simp only [Bool.and_eq_true, decide_eq_true_eq]
                                       omega)]
                        rw [if_neg (by simp only [Bool.and_eq_true, decide_eq_true_eq]
                                       omega)]
                        rw [IH]
                        simp [Char.ofNat_toNat]
                      · rw [if_neg h9]
                        rw [toHex4, toHex4]
                        simp only [List.cons_append, List.nil_append, List.append_assoc]
                        rw [parseStringBody]
                        rw [if_neg (by decide : ¬('\\' : Char) = '"'),
                          if_pos (rfl : ('\\' : Char) = '\\')]
                        rw [parseEscape]
                        rw [if_pos (rfl : ('u' : Char) = 'u')]
                        rw [parseUnicodeEsc]
                        have hlt := char_toNat_lt c
                        simp only [hex4Val_toHex4 (55296 + (c.toNat - 65536) / 1024)
                          (by omega)]
                        rw [if_pos (by simp only [Bool.and_eq_true, decide_eq_true_eq]
                                       omega)]
                        rw [parseLowSurrogate]
                        rw [if_pos (by simp)]
                        simp only [hex4Val_toHex4 (56320 + (c.toNat - 65536) % 1024)
                          (by omega)]
                        rw [if_pos (by simp only [Bool.and_eq_true, decide_eq_true_eq]
                                       omega)]
                        rw [IH]
                        have hval : 65536 + (c.toNat - 65536) / 1024 * 1024 +
                            (c.toNat - 65536) % 1024 = c.toNat := by omega
                        simp [hval, Char.ofNat_toNat]
                    · rw [if_neg h8]
                      simp only [List.cons_append, List.nil_append]
                      rw [parseStringBody]
                      rw [if_neg h1, if_neg h2]
                      rw [if_neg (by simp only [Bool.or_eq_true, decide_eq_true_eq,
                        not_or, not_lt] at h8; omega)]
                      rw [IH]
                      rfl

/-! ## Claim C3: whitespace and head-character lemmas -/

theorem skipWs_not_ws {c : Char} (l : List Char)
    (h : (c = ' ' || c = '\t' || c = '\n' || c = '\r') = false) :
    skipWs (c :: l) = c :: l := by
  rw [skipWs, List.dropWhile_cons]
  simp only [h, Bool.false_eq_true, if_false]

theorem skipWs_space (l : List Char) : skipWs (' ' :: l) = skipWs l := by
  rw [skipWs, skipWs, List.dropWhile_cons]
  simp

theorem digit_not_ws {c : Char} (h : isDigitCh c = true) :
    (c = ' ' || c = '\t' || c = '\n' || c = '\r') = false := by
  by_cases e1 : c = ' '
  · subst e1; exact absurd h (by decide)
  by_cases e2 : c = '\t'
  · subst e2; exact absurd h (by decide)
  by_cases e3 : c = '\n'
  · subst e3; exact absurd h (by decide)
  by_cases e4 : c = '\r'
  · subst e4; exact absurd h (by decide)
  simp [e1, e2, e3, e4]

theorem digit_head_facts {c : Char} (h : isDigitCh c = true) :
    ¬c = 'n' ∧ ¬c = 't' ∧ ¬c = 'f' ∧ ¬c = '"' ∧ ¬c = '[' ∧ ¬c = '{' ∧ ¬c = ']' ∧ ¬c = '}' := by
  refine ⟨?_, ?_, ?_, ?_, ?_, ?_, ?_, ?_⟩ <;> intro hc <;> subst hc <;> exact absurd h (by decide)

/-- The first character of a serialised value: it exists, it is not JSON
whitespace, and it is not a closing bracket. -/
theorem dumpsVal_cons (v : Json) :
    ∃ c t, dumpsVal v = c :: t ∧ (c = ' ' || c = '\t' || c = '\n' || c = '\r') = false ∧
      ¬c = ']' ∧ ¬c = '}' := by
  cases v with
  | null => exact ⟨'n', _, rfl, by decide, by decide, by decide⟩
  | bool b => cases b
              · exact ⟨'f', _, rfl, by decide, by decide, by decide⟩
              · exact ⟨'t', _, rfl, by decide, by decide, by decide⟩
  | num n =>
      rw [dumpsVal, intChars]
      by_cases hneg : n < 0
      · rw [if_pos hneg]
        exact ⟨'-', _, rfl, by decide, by decide, by decide⟩
      · rw [if_neg hneg]
        rcases hnc : natChars (n.natAbs + 1) n.natAbs with _ | ⟨c, ds⟩
        · exact absurd hnc (natChars_ne_nil _ _ (by omega))
        · have hc : isDigitCh c = true :=
            natChars_digits (n.natAbs + 1) n.natAbs (by omega) c (by rw [hnc]; simp)
          have hf := digit_head_facts hc
          exact ⟨c, ds, rfl, digit_not_ws hc, hf.2.2.2.2.2.2.1, hf.2.2.2.2.2.2.2⟩
  | str s => exact ⟨'"', _, rfl, by decide, by decide, by decide⟩
  | arr xs => exact ⟨'[', _, rfl, by decide, by decide, by decide⟩
  | obj kvs => exact ⟨'{', _, rfl, by decide, by decide, by decide⟩

theorem skipWs_dumpsVal (v : Json) (rest : List Char) :
    skipWs (dumpsVal v ++ rest) = dumpsVal v ++ rest := by
  obtain ⟨c, t, hcons, hws, _, _⟩ := dumpsVal_cons v
  rw [hcons, List.cons_append]
  exact skipWs_not_ws _ hws

/-- A non-empty member list serialises starting with the key's opening
quote. -/
theorem dumpsMembers_cons (k : String) (v : Json) (kvs : List (String × Json)) :
    ∃ t, dumpsMembers ((k, v) :: kvs) = '"' :: t := by
  cases kvs with
  | nil => exact ⟨_, rfl⟩
  | cons m ms => exact ⟨_, rfl⟩

/-! ## Claim C3: the parser inverts the serialiser -/

mutual

theorem parseValue_dumps : ∀ (v : Json) (fuel : Nat) (l rest : List Char),
    skipWs l = dumpsVal v ++ rest → (dumpsVal v).length ≤ fuel → restDelim rest = true →
    parseValueF fuel l = some (v, rest)
  | Json.null, fuel, l, rest, hl, hfuel, _ => by
      rw [dumpsVal] at hl hfuel
      simp only [List.cons_append, List.nil_append] at hl
      simp only [List.length_cons, List.length_nil] at hfuel
      rcases fuel with _ | f
      · omega
      · rw [parseValueF, hl]
        simp
  | Json.bool true, fuel, l, rest, hl, hfuel, _ => by
      rw [dumpsVal] at hl hfuel
      simp only [List.cons_append, List.nil_append] at hl
      simp only [List.length_cons, List.length_nil] at hfuel
      rcases fuel with _ | f
      · omega
      · rw [parseValueF, hl]
        simp
  | Json.bool false, fuel, l, rest, hl, hfuel, _ => by
      rw [dumpsVal] at hl hfuel
      simp only [List.cons_append, List.nil_append] at hl
      simp only [List.length_cons, List.length_nil] at hfuel
      rcases fuel with _ | f
      · omega
      · rw [parseValueF, hl]
        simp
  | Json.num n, fuel, l, rest, hl, hfuel, hrest => by
      rw [dumpsVal] at hl hfuel
      by_cases hneg : n < 0
      · rw [intChars, if_pos hneg] at hl hfuel
        simp only [List.cons_append] at hl
        simp only [List.length_cons] at hfuel
        rcases fuel with _ | f
        · omega
        · rw [parseValueF, hl]
          simp only []
          rw [if_neg (by decide : ¬('-' : Char) = 'n'),
            if_neg (by decide : ¬('-' : Char) = 't'),
            if_neg (by decide : ¬('-' : Char) = 'f'),
            if_neg (by decide : ¬('-' : Char) = '"'),
            if_neg (by decide : ¬('-' : Char) = '['),
            if_neg (by decide : ¬('-' : Char) = '{')]
          have hrw : '-' :: (natChars (n.natAbs + 1) n.natAbs ++ rest)
              = intChars n ++ rest := by
            rw [intChars, if_pos hneg]
            simp
          rw [hrw, parseNumber_intChars n rest hrest]
      · rw [intChars, if_neg hneg] at hl hfuel
        rcases hnc : natChars (n.natAbs + 1) n.natAbs with _ | ⟨c, ds⟩
        · exact absurd hnc (natChars_ne_nil _ _ (by omega))
        · have hc : isDigitCh c = true :=
            natChars_digits (n.natAbs + 1) n.natAbs (by omega) c (by rw [hnc]; simp)
          have hf := digit_head_facts hc
          rw [hnc] at hl hfuel
          simp only [List.cons_append] at hl
          simp only [List.length_cons] at hfuel
          rcases fuel with _ | f
          · omega
          · rw [parseValueF, hl]
            simp only []
            rw [if_neg hf.1, if_neg hf.2.1, if_neg hf.2.2.1, if_neg hf.2.2.2.1,
              if_neg hf.2.2.2.2.1, if_neg hf.2.2.2.2.2.1]
            have hrw : c :: (ds ++ rest) = intChars n ++ rest := by
              rw [intChars, if_neg hneg, hnc]
              simp
            rw [hrw, parseNumber_intChars n rest hrest]
  | Json.str s, fuel, l, rest, hl, hfuel, _ => by
      rw [dumpsVal] at hl hfuel
      simp only [List.cons_append, List.append_assoc, List.nil_append] at hl
      simp only [List.length_append, List.length_cons, List.length_nil] at hfuel
      rcases fuel with _ | f
      · omega
      · rw [parseValueF, hl]
        simp only [reduceIte]
        rw [parseStringBody_escape s.data rest]
        rfl
  | Json.arr [], fuel, l, rest, hl, hfuel, _ => by
      rw [dumpsVal, dumpsElems] at hl hfuel
      simp only [List.cons_append, List.nil_append] at hl
      simp only [List.length_append, List.length_cons, List.length_nil] at hfuel
      rcases fuel with _ | f
      · omega
      · rw [parseValueF, hl]
        simp only [reduceIte]
        rw [skipWs_not_ws rest (by decide)]
        simp
  | Json.arr (x :: xs), fuel, l, rest, hl, hfuel, _ => by
      rw [dumpsVal] at hl hfuel
      simp only [List.cons_append, List.append_assoc, List.nil_append] at hl
      simp only [List.length_cons, List.length_append] at hfuel
      rcases fuel with _ | f
      · omega
      · rw [parseValueF, hl]
        simp only [reduceIte]
        obtain ⟨c, t, hcons, hws, hnr, _⟩ := dumpsVal_cons x
        have hd : ∃ T, dumpsElems (x :: xs) = dumpsVal x ++ T ∧
            dumpsElems (x :: xs) ++ ']' :: rest = c :: (t ++ T ++ ']' :: rest) := by
          cases xs with
          | nil => exact ⟨[], by simp [dumpsElems], by simp [dumpsElems, hcons]⟩
          | cons y ys =>
              refine ⟨',' :: ' ' :: dumpsElems (y :: ys), by simp [dumpsElems], ?_⟩
              rw [dumpsElems, hcons]
              simp
        obtain ⟨T, hT, hT2⟩ := hd
        rw [hT2, skipWs_not_ws _ hws]
        simp only []
        rw [if_neg hnr]
        have helems : parseElemsF f (c :: (t ++ T ++ ']' :: rest)) = some (x :: xs, rest) := by
          apply parseElems_dumps (x :: xs) f _ rest (by simp)
          · rw [skipWs_not_ws _ hws, hT, hcons]
            simp
          · have hlen : (dumpsElems (x :: xs)).length + 1 ≤ f + 1 := by
              rw [hT, hcons] at hfuel ⊢
              simp only [List.length_append, List.length_cons] at hfuel ⊢
              omega
            omega
        rw [helems]
        rfl
  | Json.obj [], fuel, l, rest, hl, hfuel, _ => by
      rw [dumpsVal, dumpsMembers] at hl hfuel
      simp only [List.cons_append, List.nil_append] at hl
      simp only [List.length_append, List.length_cons, List.length_nil] at hfuel
      rcases fuel with _ | f
      · omega
      · rw [parseValueF, hl]
        simp only [reduceIte]
        rw [skipWs_not_ws rest (by decide)]
        simp
  | Json.obj ((k, v) :: kvs), fuel, l, rest, hl, hfuel, _ => by
      rw [dumpsVal] at hl hfuel
      simp only [List.cons_append, List.append_assoc, List.nil_append] at hl
      simp only [List.length_cons, List.length_append] at hfuel
      rcases fuel with _ | f
      · omega
      · rw [parseValueF, hl]
        simp only [reduceIte]
        obtain ⟨t, hcons⟩ := dumpsMembers_cons k v kvs
        rw [hcons]
        simp only [List.cons_append]
        rw [skipWs_not_ws _ (by decide)]
        simp only [reduceIte]
        have hmem : parseMembersF f ('"' :: (t ++ '}' :: rest)) = some ((k, v) :: kvs, rest) := by
          have : '"' :: (t ++ '}' :: rest) = dumpsMembers ((k, v) :: kvs) ++ '}' :: rest := by
            rw [hcons]
            simp
          rw [this]
          apply parseMembers_dumps ((k, v) :: kvs) f rest (by simp)
          rw [hcons] at hfuel ⊢
          simp only [List.length_cons] at hfuel ⊢
          omega
        rw [hmem]
        rfl

theorem parseElems_dumps : ∀ (xs : List Json) (fuel : Nat) (l rest : List Char),
    xs ≠ [] → skipWs l = dumpsElems xs ++ ']' :: rest →
    (dumpsElems xs).length + 1 ≤ fuel →
    parseElemsF fuel l = some (xs, rest)
  | [], _, _, _, hne, _, _ => absurd rfl hne
  | [x], fuel, l, rest, _, hl, hfuel => by
      rw [dumpsElems] at hl hfuel
      rcases fuel with _ | f
      · omega
      · rw [parseElemsF]
        rw [parseValue_dumps x f l (']' :: rest) hl (by omega) (by rfl)]
        simp only []
        rw [skipWs_not_ws rest (by decide)]
        simp only [reduceIte]
        rfl
  | x :: y :: ys, fuel, l, rest, _, hl, hfuel => by
      rw [dumpsElems] at hl hfuel
      simp only [List.append_assoc, List.cons_append] at hl
      simp only [List.length_append, List.length_cons] at hfuel
      rcases fuel with _ | f
      · omega
      · rw [parseElemsF]
        rw [parseValue_dumps x f l (',' :: ' ' :: (dumpsElems (y :: ys) ++ ']' :: rest))
          (by rw [hl]) (by omega) (by rfl)]
        simp only []
        rw [skipWs_not_ws _ (by decide)]
        simp only [reduceIte]
        obtain ⟨c, t, hcons, hws, _, _⟩ := dumpsVal_cons y
        have htail : parseElemsF f (' ' :: (dumpsElems (y :: ys) ++ ']' :: rest))
            = some (y :: ys, rest) := by
          apply parseElems_dumps (y :: ys) f _ rest (by simp)
          · rw [skipWs_space]
            have hd : ∃ T, dumpsElems (y :: ys) = dumpsVal y ++ T := by
              cases ys with
              | nil => exact ⟨[], by simp [dumpsElems]⟩
              | cons z zs => exact ⟨',' :: ' ' :: dumpsElems (z :: zs), by simp [dumpsElems]⟩
            obtain ⟨T, hT⟩ := hd
            rw [hT]
            simp only [List.append_assoc]
            exact skipWs_dumpsVal y (T ++ ']' :: rest)
          · omega
        rw [htail]
        rfl

theorem parseMembers_dumps : ∀ (kvs : List (String × Json)) (fuel : Nat) (rest : List Char),
    kvs ≠ [] → (dumpsMembers kvs).length + 1 ≤ fuel →
    parseMembersF fuel (dumpsMembers kvs ++ '}' :: rest) = some (kvs, rest)
  | [], _, _, hne, _ => absurd rfl hne
  | [(k, v)], fuel, rest, _, hfuel => by
      rw [dumpsMembers] at hfuel ⊢
      simp only [List.length_cons, List.length_append] at hfuel
      rcases fuel with _ | f
      · omega
      · simp only [List.cons_append, List.append_assoc]
        rw [parseMembersF.eq_def]
        simp only [reduceIte]
        have hstr : parseStringBody (escapeStr k.data ++ '"' :: (':' :: ' ' :: (dumpsVal v ++ '}' :: rest)))
            = some (k.data, ':' :: ' ' :: (dumpsVal v ++ '}' :: rest)) :=
          parseStringBody_escape k.data _
        rw [hstr]
        simp only []
        rw [skipWs_not_ws _ (by decide)]
        simp only [reduceIte]
        rw [parseValue_dumps v f (' ' :: (dumpsVal v ++ '}' :: rest)) ('}' :: rest)
          (by rw [skipWs_space]; exact skipWs_dumpsVal v _) (by omega) (by rfl)]
        simp only []
        rw [skipWs_not_ws _ (by decide)]
        simp only [reduceIte]
        rfl
  | (k, v) :: m :: ms, fuel, rest, _, hfuel => by
      rw [dumpsMembers] at hfuel ⊢
      simp only [List.length_cons, List.length_append] at hfuel
      rcases fuel with _ | f
      · omega
      · simp only [List.cons_append, List.append_assoc]
        rw [parseMembersF.eq_def]
        simp only [reduceIte]
        have hstr : parseStringBody (escapeStr k.data ++ '"' :: (':' :: ' ' :: (dumpsVal v ++
              ',' :: ' ' :: (dumpsMembers (m :: ms) ++ '}' :: rest))))
            = some (k.data, ':' :: ' ' :: (dumpsVal v ++
              ',' :: ' ' :: (dumpsMembers (m :: ms) ++ '}' :: rest))) :=
          parseStringBody_escape k.data _
        rw [hstr]
        simp only []
        rw [skipWs_not_ws _ (by decide)]
        simp only [reduceIte]
        rw [parseValue_dumps v f _ (',' :: ' ' :: (dumpsMembers (m :: ms) ++ '}' :: rest))
          (by rw [skipWs_space]; exact skipWs_dumpsVal v _) (by omega) (by rfl)]
        simp only []
        rw [skipWs_not_ws _ (by decide)]
        simp only [reduceIte]
        obtain ⟨k2, v2⟩ := m
        obtain ⟨t2, hcons2⟩ := dumpsMembers_cons k2 v2 ms
        have hskip : skipWs (' ' :: (dumpsMembers ((k2, v2) :: ms) ++ '}' :: rest))
            = dumpsMembers ((k2, v2) :: ms) ++ '}' :: rest := by
          rw [skipWs_space, hcons2]
          simp only [List.cons_append]
          exact skipWs_not_ws _ (by decide)
        rw [hskip]
        rw [parseMembers_dumps ((k2, v2) :: ms) f rest (by simp) (by omega)]
        rfl

end

/-! ## Claim C3: the serialised value is ASCII, so UTF-8 is transparent -/

theorem hexDig_ascii : ∀ n < 16, (hexDig n).toNat < 128 := by decide

theorem toHex4_ascii (n : Nat) : ∀ d ∈ toHex4 n, d.toNat < 128 := by
  intro d hd
  rw [toHex4] at hd
  simp only [List.mem_cons, List.not_mem_nil, or_false] at hd
  rcases hd with h | h | h | h <;> rw [h] <;>
    exact hexDig_ascii _ (Nat.mod_lt _ (by decide))

theorem isDigitCh_ascii {c : Char} (h : isDigitCh c = true) : c.toNat < 128 := by
  rw [isDigitCh] at h
  simp only [Bool.and_eq_true, decide_eq_true_eq] at h
  omega

theorem escapeChar_ascii (c : Char) : ∀ d ∈ escapeChar c, d.toNat < 128 := by
  intro d hd
  rw [escapeChar] at hd
  split_ifs at hd with h1 h2 h3 h4 h5 h6 h7 h8 h9
  · simp only [List.mem_cons, List.not_mem_nil, or_false] at hd
    rcases hd with h | h <;> rw [h] <;> decide
  · simp only [List.mem_cons, List.not_mem_nil, or_false] at hd
    rcases hd with h | h <;> rw [h] <;> decide
  · simp only [List.mem_cons, List.not_mem_nil, or_false] at hd
    rcases hd with h | h <;> rw [h] <;> decide
  · simp only [List.mem_cons, List.not_mem_nil, or_false] at hd
    rcases hd with h | h <;> rw [h] <;> decide
  · simp only [List.mem_cons, List.not_mem_nil, or_false] at hd
    rcases hd with h | h <;> rw [h] <;> decide
  · simp only [List.mem_cons, List.not_mem_nil, or_false] at hd
    rcases hd with h | h <;> rw [h] <;> decide
  · simp only [List.mem_cons, List.not_mem_nil, or_false] at hd
    rcases hd with h | h <;> rw [h] <;> decide
  · simp only [List.mem_cons, List.not_mem_nil, or_false] at hd
    rcases hd with h | h | h
    · rw [h]; decide
    · rw [h]; decide
    · exact toHex4_ascii _ d h
  · simp only [List.cons_append, List.mem_cons, List.mem_append] at hd
    rcases hd with h | h | (h | (h | h | h))
    · rw [h]; decide
    · rw [h]; decide
    · exact toHex4_ascii _ d h
    · rw [h]; decide
    · rw [h]; decide
    · exact toHex4_ascii _ d h
  · simp only [List.mem_cons, List.not_mem_nil, or_false] at hd
    rw [hd]
    simp only [Bool.or_eq_true, decide_eq_true_eq, not_or, not_lt] at h8
    omega

theorem escapeStr_ascii : ∀ (cs : List Char), ∀ d ∈ escapeStr cs, d.toNat < 128
  | [], _, hd => absurd hd (List.not_mem_nil _)
  | c :: rest, d, hd => by
      rw [escapeStr] at hd
      rcases List.mem_append.mp hd with h | h
      · exact escapeChar_ascii c d h
      · exact escapeStr_ascii rest d h

theorem natChars_ascii (fuel n : Nat) (hfn : n < fuel) :
    ∀ d ∈ natChars fuel n, d.toNat < 128 := fun d hd =>
  isDigitCh_ascii (natChars_digits fuel n hfn d hd)

theorem intChars_ascii (i : Int) : ∀ d ∈ intChars i, d.toNat < 128 := by
  intro d hd
  rw [intChars] at hd
  split_ifs at hd with h
  · rcases List.mem_cons.mp hd with h2 | h2
    · rw [h2]; decide
    · exact natChars_ascii _ _ (by omega) d h2
  · exact natChars_ascii _ _ (by omega) d hd

mutual

theorem dumpsVal_ascii : ∀ (v : Json), ∀ d ∈ dumpsVal v, d.toNat < 128
  | Json.null, d, hd => by
      rw [dumpsVal] at hd
      simp only [List.mem_cons, List.not_mem_nil, or_false] at hd
      rcases hd with h | h | h | h <;> rw [h] <;> decide
  | Json.bool true, d, hd => by
      rw [dumpsVal] at hd
      simp only [List.mem_cons, List.not_mem_nil, or_false] at hd
      rcases hd with h | h | h | h <;> rw [h] <;> decide
  | Json.bool false, d, hd => by
      rw [dumpsVal] at hd
      simp only [List.mem_cons, List.not_mem_nil, or_false] at hd
      rcases hd with h | h | h | h | h <;> rw [h] <;> decide
  | Json.num n, d, hd => by
      rw [dumpsVal] at hd
      exact intChars_ascii n d hd
  | Json.str s, d, hd => by
      rw [dumpsVal] at hd
      rcases List.mem_cons.mp hd with h | h
      · rw [h]; decide
      · rcases List.mem_append.mp h with h2 | h2
        · exact escapeStr_ascii s.data d h2
        · simp only [List.mem_cons, List.not_mem_nil, or_false] at h2
          rw [h2]; decide
  | Json.arr xs, d, hd => by
      rw [dumpsVal] at hd
      rcases List.mem_cons.mp hd with h | h
      · rw [h]; decide
      · rcases List.mem_append.mp h with h2 | h2
        · exact dumpsElems_ascii xs d h2
        · simp only [List.mem_cons, List.not_mem_nil, or_false] at h2
          rw [h2]; decide
  | Json.obj kvs, d, hd => by
      rw [dumpsVal] at hd
      rcases List.mem_cons.mp hd with h | h
      · rw [h]; decide
      · rcases List.mem_append.mp h with h2 | h2
        · exact dumpsMembers_ascii kvs d h2
        · simp only [List.mem_cons, List.not_mem_nil, or_false] at h2
          rw [h2]; decide

theorem dumpsElems_ascii : ∀ (xs : List Json), ∀ d ∈ dumpsElems xs, d.toNat < 128
  | [], _, hd => absurd hd (by rw [dumpsElems]; exact List.not_mem_nil _)
  | [x], d, hd => by
      rw [dumpsElems] at hd
      exact dumpsVal_ascii x d hd
  | x :: y :: rest, d, hd => by
      rw [dumpsElems] at hd
      rcases List.mem_append.mp hd with h | h
      · exact dumpsVal_ascii x d h
      · simp only [List.mem_cons] at h
        rcases h with h | h | h
        · rw [h]; decide
        · rw [h]; decide
        · exact dumpsElems_ascii (y :: rest) d h

theorem dumpsMembers_ascii :
    ∀ (kvs : List (String × Json)), ∀ d ∈ dumpsMembers kvs, d.toNat < 128
  | [], _, hd => absurd hd (by rw [dumpsMembers]; exact List.not_mem_nil _)
  | [(k, v)], d, hd => by
      rw [dumpsMembers] at hd
      rcases List.mem_append.mp hd with h | h
      · rcases List.mem_cons.mp h with h2 | h2
        · rw [h2]; decide
        · exact escapeStr_ascii k.data d h2
      · rcases List.mem_cons.mp h with h2 | h2
        · rw [h2]; decide
        · rcases List.mem_cons.mp h2 with h3 | h3
          · rw [h3]; decide
          · rcases List.mem_cons.mp h3 with h4 | h4
            · rw [h4]; decide
            · exact dumpsVal_ascii v d h4
  | (k, v) :: m :: rest, d, hd => by
      rw [dumpsMembers] at hd
      rcases List.mem_append.mp hd with h | h
      · rcases List.mem_append.mp h with h2 | h2
        · rcases List.mem_cons.mp h2 with h3 | h3
          · rw [h3]; decide
          · exact escapeStr_ascii k.data d h3
        · rcases List.mem_cons.mp h2 with h3 | h3
          · rw [h3]; decide
          · rcases List.mem_cons.mp h3 with h4 | h4
            · rw [h4]; decide
            · rcases List.mem_cons.mp h4 with h5 | h5
              · rw [h5]; decide
              · exact dumpsVal_ascii v d h5
      · rcases List.mem_cons.mp h with h2 | h2
        · rw [h2]; decide
        · rcases List.mem_cons.mp h2 with h3 | h3
          · rw [h3]; decide
          · exact dumpsMembers_ascii (m :: rest) d h3

end

theorem utf8Encode_ascii : ∀ (cs : List Char), (∀ c ∈ cs, c.toNat < 128) →
    utf8Encode cs = cs.map Char.toNat
  | [], _ => rfl
  | c :: rest, h => by
      rw [utf8Encode, utf8EncodeChar]
      simp only [if_pos (h c (List.mem_cons_self c rest))]
      rw [utf8Encode_ascii rest (fun d hd => h d (List.mem_cons_of_mem c hd))]
      rfl

theorem utf8Decode_ascii : ∀ (cs : List Char), (∀ c ∈ cs, c.toNat < 128) →
    utf8Decode (cs.map Char.toNat) = some cs
  | [], _ => rfl
  | c :: rest, h => by
      rw [List.map_cons, utf8Decode]
      rw [if_pos (h c (List.mem_cons_self c rest))]
      rw [utf8Decode_ascii rest (fun d hd => h d (List.mem_cons_of_mem c hd))]
      rw [Option.map_some']
      rw [Char.ofNat_toNat]

/-! ## Claim C3: base64 decoding inverts encoding on byte strings -/

theorem b64Val_b64Char : ∀ n < 64, b64Val (b64Char n) = some n := by decide

theorem b64Char_keep : ∀ n < 64,
    (b64Alphabet.contains (b64Char n) || b64Char n = '=') = true := by decide

theorem b64encode_keep : ∀ (bs : List Nat), (∀ b ∈ bs, b < 256) →
    ∀ c ∈ b64encode bs, (b64Alphabet.contains c || c = '=') = true
  | [], _, _, hc => absurd hc (List.not_mem_nil _)
  | [a], h, c, hc => by
      have ha : a < 256 := h a (by simp)
      rw [b64encode] at hc
      simp only [List.mem_cons, List.not_mem_nil, or_false] at hc
      rcases hc with h1 | h1 | h1 | h1 <;> rw [h1]
      · exact b64Char_keep _ (by omega)
      · exact b64Char_keep _ (by omega)
      · decide
      · decide
  | [a, b], h, c, hc => by
      have ha : a < 256 := h a (by simp)
      have hb : b < 256 := h b (by simp)
      rw [b64encode] at hc
      simp only [List.mem_cons, List.not_mem_nil, or_false] at hc
      rcases hc with h1 | h1 | h1 | h1 <;> rw [h1]
      · exact b64Char_keep _ (by omega)
      · exact b64Char_keep _ (by omega)
      · exact b64Char_keep _ (by omega)
      · decide
  | a :: b :: e :: rest, h, c, hc => by
      have ha : a < 256 := h a (by simp)
      have hb : b < 256 := h b (by simp)
      have he : e < 256 := h e (by simp)
      rw [b64encode] at hc
      simp only [List.mem_cons] at hc
      rcases hc with h1 | h1 | h1 | h1 | h1
      · rw [h1]; exact b64Char_keep _ (by omega)
      · rw [h1]; exact b64Char_keep _ (by omega)
      · rw [h1]; exact b64Char_keep _ (by omega)
      · rw [h1]; exact b64Char_keep _ (by omega)
      · exact b64encode_keep rest (fun x hx => h x (by simp [hx])) c h1

theorem b64decodeGroups_encode : ∀ (bs : List Nat), (∀ b ∈ bs, b < 256) →
    b64decodeGroups (b64encode bs) = some bs
  | [], _ => rfl
  | [a], h => by
      have ha : a < 256 := h a (by simp)
      rw [b64encode, b64decodeGroups]
      rw [b64Val_b64Char (a / 4) (by omega), b64Val_b64Char (a % 4 * 16) (by omega)]
      have hpad : b64Val '=' = none := by decide
      rw [hpad]
      simp only []
      rw [if_pos (by decide)]
      have h1 : a / 4 * 4 + a % 4 * 16 / 16 = a := by omega
      rw [h1]
  | [a, b], h => by
      have ha : a < 256 := h a (by simp)
      have hb : b < 256 := h b (by simp)
      rw [b64encode, b64decodeGroups]
      rw [b64Val_b64Char (a / 4) (by omega),
        b64Val_b64Char (a % 4 * 16 + b / 16) (by omega),
        b64Val_b64Char (b % 16 * 4) (by omega)]
      have hpad : b64Val '=' = none := by decide
      rw [hpad]
      simp only []
      rw [if_pos (by decide)]
      have h1 : a / 4 * 4 + (a % 4 * 16 + b / 16) / 16 = a := by omega
      have h2 : (a % 4 * 16 + b / 16) % 16 * 16 + b % 16 * 4 / 4 = b := by omega
      rw [h1, h2]
  | a :: b :: e :: rest, h => by
      have ha : a < 256 := h a (by simp)
      have hb : b < 256 := h b (by simp)
      have he : e < 256 := h e (by simp)
      rw [b64encode, b64decodeGroups]
      rw [b64Val_b64Char (a / 4) (by omega),
        b64Val_b64Char (a % 4 * 16 + b / 16) (by omega),
        b64Val_b64Char (b % 16 * 4 + e / 64) (by omega),
        b64Val_b64Char (e % 64) (by omega)]
      simp only []
      rw [b64decodeGroups_encode rest (fun x hx => h x (by simp [hx]))]
      rw [Option.map_some']
      have h1 : a / 4 * 4 + (a % 4 * 16 + b / 16) / 16 = a := by omega
      have h2 : (a % 4 * 16 + b / 16) % 16 * 16 + (b % 16 * 4 + e / 64) / 4 = b := by omega
      have h3 : (b % 16 * 4 + e / 64) % 4 * 64 + e % 64 = e := by omega
      rw [h1, h2, h3]

theorem b64encode_mod4 (bs : List Nat) : (b64encode bs).length % 4 = 0 := by
  rw [b64encode_length]
  exact Nat.mul_mod_left _ _

theorem pyB64decode_encode (bs : List Nat) (h : ∀ b ∈ bs, b < 256) :
    pyB64decode (Json.str (String.mk (b64encode bs))) = Except.ok bs := by
  rw [pyB64decode]
  simp only []
  rw [List.filter_eq_self.mpr (fun c hc => b64encode_keep bs h c hc)]
  rw [if_pos (b64encode_mod4 bs)]
  rw [b64decodeGroups_encode bs h]

/-! ## Claim C3: `json.loads` inverts `json.dumps` -/

theorem parseJson_dumps (v : Json) : parseJson (dumpsVal v) = some v := by
  rw [parseJson]
  rw [parseValue_dumps v ((dumpsVal v).length + 1) (dumpsVal v) []
    (by simpa using skipWs_dumpsVal v []) (by omega) rfl]
  rfl

/-- Claim C3: relay unwrapping round-trip — for every JSON value `I`,
routing the payload
`{"message": {"data": base64(json(I)), "attributes": {"message_type": "TEXT"}}}`
invokes the message handler with exactly `I`, the decoded inner payload,
and with nothing else. -/
theorem claim_C3_relay_roundtrip (inner : Json) :
    (routePayload (relayWrap inner)).2 = [HandlerCall.message inner] := by
  have hascii := dumpsVal_ascii inner
  have hbytes : ∀ b ∈ utf8Encode (dumpsVal inner), b < 256 := by
    rw [utf8Encode_ascii (dumpsVal inner) hascii]
    intro b hb
    obtain ⟨c, hc, he⟩ := List.mem_map.mp hb
    have := hascii c hc
    omega
  have hutf : utf8Decode (utf8Encode (dumpsVal inner)) = some (dumpsVal inner) := by
    rw [utf8Encode_ascii (dumpsVal inner) hascii]
    exact utf8Decode_ascii (dumpsVal inner) hascii
  rw [routePayload, relayWrap]
  simp only [pyIn, lookupKV, dictGet, pyTruthy, envelopeStage, relayBranch, relayDispatch,
    reduceIte, Option.isSome_none, Option.isSome_some, Option.getD_some, List.isEmpty_cons,
    Bool.not_false, Bool.false_and, Bool.false_eq_true, if_false, if_true,
    pyB64decode_encode (utf8Encode (dumpsVal inner)) hbytes, hutf, parseJson_dumps]
  cases h : handleMessage inner <;> simp [runHandler, h, lookupKV]

end RcsApp
